import Mathlib

/-
Verification of the data-ingestion pipeline service.

The Python sources are shallowly embedded: byte strings become `List Nat`
(each entry < 256), Python `str` becomes `String`, `dict.get` becomes
association-list lookup or `Option` fields, and fallible code returns
`Except`.  Machine words in SHA-256 are `Nat` reduced modulo 2^32.
Library calls made by the code (hashlib.sha256, base64.b64decode,
urllib.parse.urlparse, os.path.dirname, re substitutions) are modelled
directly from their documented semantics so that every definition is
executable.
-/

set_option maxRecDepth 100000

namespace Ingest

/-- Python whitespace (`str.isspace`, also the set matched by the regex
class `\s` in unicode mode): ASCII space, tab, newline, carriage return,
vertical tab, form feed, the C1 separators, NEL, NBSP, and the Unicode
space characters. -/
def isPySpace (c : Char) : Bool :=
  c == ' ' || c == '\t' || c == '\n' || c == '\r' ||
  c == '\x0b' || c == '\x0c' ||
  (0x1c ≤ c.toNat && c.toNat ≤ 0x1f) ||
  c.toNat == 0x85 || c.toNat == 0xa0 || c.toNat == 0x1680 ||
  (0x2000 ≤ c.toNat && c.toNat ≤ 0x200a) ||
  c.toNat == 0x2028 || c.toNat == 0x2029 || c.toNat == 0x202f ||
  c.toNat == 0x205f || c.toNat == 0x3000

/-- Python `str.strip()` on a list of characters. -/
def pyStripL (cs : List Char) : List Char :=
  ((cs.dropWhile isPySpace).reverse.dropWhile isPySpace).reverse

/-- Python `str.strip()`. -/
def pyStrip (s : String) : String :=
  ⟨pyStripL s.data⟩

/-- Python f-string rendering of an `Optional[str]`: `None` prints as the
four-character string, a string prints as itself. -/
def pyStr : Option String → String
  | none => "None"
  | some s => s

/-- Python dict lookup `d.get(k)` on an association list. -/
def pyGet (d : List (String × String)) (k : String) : Option String :=
  (d.find? (fun kv => kv.1 == k)).map (·.2)

/-- Whether `pat` is a prefix of `cs` (kernel-reducible
`str.startswith`). -/
def hasPfx : List Char → List Char → Bool
  | [], _ => true
  | _ :: _, [] => false
  | p :: ps, c :: cs => p == c && hasPfx ps cs

/-- Whether `pat` is a suffix of `cs` (kernel-reducible
`str.endswith`). -/
def hasSfx (pat cs : List Char) : Bool :=
  hasPfx pat.reverse cs.reverse

/-- Split a character list on a separator character, Python
`str.split(sep)` (empty pieces preserved). -/
def splitOnChar (sep : Char) : List Char → List (List Char)
  | [] => [[]]
  | c :: rest =>
      if c == sep then [] :: splitOnChar sep rest
      else
        match splitOnChar sep rest with
        | l :: ls => (c :: l) :: ls
        | [] => [[c]]

/-- Join character lists with a separator sequence,
`sep.join(pieces)`. -/
def joinWithSep (sep : List Char) : List (List Char) → List Char
  | [] => []
  | [l] => l
  | l :: ls => l ++ sep ++ joinWithSep sep ls

/-- Python truthiness of an optional string: `None` and `""` are falsy. -/
def strTruthy : Option String → Bool
  | none => false
  | some s => !(s == "")

/-- UTF-8 encoding of one character (`str.encode("utf-8")`). -/
def utf8Char (c : Char) : List Nat :=
  let n := c.toNat
  if n < 0x80 then [n]
  else if n < 0x800 then [0xC0 + n / 64, 0x80 + n % 64]
  else if n < 0x10000 then
    [0xE0 + n / 4096, 0x80 + (n / 64) % 64, 0x80 + n % 64]
  else
    [0xF0 + n / 262144, 0x80 + (n / 4096) % 64, 0x80 + (n / 64) % 64,
     0x80 + n % 64]

/-- UTF-8 encoding of a string (`str.encode("utf-8")`). -/
def utf8Encode (s : String) : List Nat :=
  (s.data.map utf8Char).flatten

/-- Lower-case hexadecimal digit. -/
def hexDigit (n : Nat) : Char :=
  if n < 10 then Char.ofNat (48 + n) else Char.ofNat (87 + n)

-- ===================================================================
-- SHA-256 (hashlib.sha256), on `Nat` words reduced modulo 2^32.
-- ===================================================================

/-- Truncation to a 32-bit word. -/
def w32 (n : Nat) : Nat := n % 4294967296

/-- Right rotation of a 32-bit word by `n` places. -/
def rotr32 (n x : Nat) : Nat :=
  (x / 2 ^ n) + (x % 2 ^ n) * 2 ^ (32 - n)

/-- SHA-256 round constants (FIPS 180-4, written in decimal). -/
def sha256K : List Nat :=
  [1116352408, 1899447441, 3049323471, 3921009573, 961987163,
   1508970993, 2453635748, 2870763221, 3624381080, 310598401,
   607225278, 1426881987, 1925078388, 2162078206, 2614888103,
   3248222580, 3835390401, 4022224774, 264347078, 604807628,
   770255983, 1249150122, 1555081692, 1996064986, 2554220882,
   2821834349, 2952996808, 3210313671, 3336571891, 3584528711,
   113926993, 338241895, 666307205, 773529912, 1294757372,
   1396182291, 1695183700, 1986661051, 2177026350, 2456956037,
   2730485921, 2820302411, 3259730800, 3345764771, 3516065817,
   3600352804, 4094571909, 275423344, 430227734, 506948616,
   659060556, 883997877, 958139571, 1322822218, 1537002063,
   1747873779, 1955562222, 2024104815, 2227730452, 2361852424,
   2428436474, 2756734187, 3204031479, 3329325298]

/-- SHA-256 initial hash state (FIPS 180-4, written in decimal). -/
def sha256H0 : List Nat :=
  [1779033703, 3144134277, 1013904242, 2773480762,
   1359893119, 2600822924, 528734635, 1541459225]

/-- Big-endian byte rendering of `x` on `n` bytes. -/
def toBE : Nat → Nat → List Nat
  | 0, _ => []
  | n + 1, x => (x / 2 ^ (8 * n)) % 256 :: toBE n x

/-- SHA-256 message padding: append 0x80, zeros to 56 mod 64, then the
bit length on eight big-endian bytes. -/
def sha256Pad (msg : List Nat) : List Nat :=
  let r := msg.length % 64
  let k := if r ≤ 55 then 55 - r else 119 - r
  msg ++ [0x80] ++ List.replicate k 0 ++ toBE 8 (msg.length * 8)

/-- Group bytes into big-endian 32-bit words. -/
def bytesToWords : List Nat → List Nat
  | a :: b :: c :: d :: rest =>
      (((a * 256 + b) * 256 + c) * 256 + d) :: bytesToWords rest
  | _ => []

/-- Small sigma-0 message-schedule function. -/
def ssig0 (x : Nat) : Nat :=
  w32 ((rotr32 7 x) ^^^ (rotr32 18 x) ^^^ (x / 2 ^ 3))

/-- Small sigma-1 message-schedule function. -/
def ssig1 (x : Nat) : Nat :=
  w32 ((rotr32 17 x) ^^^ (rotr32 19 x) ^^^ (x / 2 ^ 10))

/-- Extend the 16 block words by `n` scheduled words; `acc` holds the
words produced so far in reverse order. -/
def schedGo : Nat → List Nat → List Nat
  | 0, acc => acc
  | n + 1, acc =>
      let wNew := w32 (ssig1 (acc.getD 1 0) + acc.getD 6 0 +
                       ssig0 (acc.getD 14 0) + acc.getD 15 0)
      schedGo n (wNew :: acc)

/-- The 64-word message schedule of one block. -/
def sha256Schedule (block : List Nat) : List Nat :=
  (schedGo 48 (bytesToWords block).reverse).reverse

/-- Big sigma-0 compression function. -/
def bsig0 (x : Nat) : Nat :=
  w32 ((rotr32 2 x) ^^^ (rotr32 13 x) ^^^ (rotr32 22 x))

/-- Big sigma-1 compression function. -/
def bsig1 (x : Nat) : Nat :=
  w32 ((rotr32 6 x) ^^^ (rotr32 11 x) ^^^ (rotr32 25 x))

/-- One round of the SHA-256 compression loop. -/
def sha256Round (st : List Nat) (k w : Nat) : List Nat :=
  match st with
  | [a, b, c, d, e, f, g, h] =>
      let ch := w32 ((e &&& f) ^^^ ((4294967295 - e) &&& g))
      let t1 := w32 (h + bsig1 e + ch + k + w)
      let mj := w32 ((a &&& b) ^^^ (a &&& c) ^^^ (b &&& c))
      let t2 := w32 (bsig0 a + mj)
      [w32 (t1 + t2), a, b, c, w32 (d + t1), e, f, g]
  | st => st

/-- Compress one 64-byte block into the running hash state. -/
def sha256Block (hs : List Nat) (block : List Nat) : List Nat :=
  let ws := sha256Schedule block
  let fin := (sha256K.zip ws).foldl (fun st kw => sha256Round st kw.1 kw.2) hs
  (hs.zip fin).map (fun p => w32 (p.1 + p.2))

/-- Split a byte list into 64-byte blocks (`fuel` bounds the recursion). -/
def chunks64 : Nat → List Nat → List (List Nat)
  | 0, _ => []
  | _, [] => []
  | fuel + 1, bs => bs.take 64 :: chunks64 fuel (bs.drop 64)

/-- Hexadecimal rendering of a 32-bit word on eight digits. -/
def wordToHex (x : Nat) : List Char :=
  [hexDigit (x / 2 ^ 28 % 16), hexDigit (x / 2 ^ 24 % 16),
   hexDigit (x / 2 ^ 20 % 16), hexDigit (x / 2 ^ 16 % 16),
   hexDigit (x / 2 ^ 12 % 16), hexDigit (x / 2 ^ 8 % 16),
   hexDigit (x / 2 ^ 4 % 16), hexDigit (x % 16)]

/-- `hashlib.sha256(msg).hexdigest()`. -/
def sha256Hex (msg : List Nat) : String :=
  let padded := sha256Pad msg
  let hs := (chunks64 (padded.length / 64 + 1) padded).foldl sha256Block sha256H0
  ⟨(hs.map wordToHex).flatten⟩

/-- Sanity check of the SHA-256 model against the FIPS 180 test vector
for the empty message. -/
theorem sha256Hex_empty :
    sha256Hex [] =
      "e3b0c44298fc1c149afbf4c8996fb92427ae41e4649b934ca495991b7852b855" := by
  decide

/-- Sanity check of the SHA-256 model against the FIPS 180 test vector
for the three-byte message "abc". -/
theorem sha256Hex_abc :
    sha256Hex (utf8Encode "abc") =
      "ba7816bf8f01cfea414140de5dae2223b00361a396177a9cb410ff61f20015ad" := by
  decide

-- ===================================================================
-- app/pipelines/id_processor.py
-- ===================================================================

/-- Membership in the `garbage` deletion set of
`clean_filename_keep_chinese` (the string passed to `str.maketrans`):
ASCII punctuation `!` through `-`, `/`, `:` through `@`, `[` through
backtick, left brace through `~`, plus the CJK quote and bracket
characters listed in the source.  Note the set contains `-` and `_` but
not `.`. -/
def isGarbageChar (c : Char) : Bool :=
  let n := c.toNat
  (0x21 ≤ n && n ≤ 0x2d) || n == 0x2f || (0x3a ≤ n && n ≤ 0x40) ||
  (0x5b ≤ n && n ≤ 0x60) || (0x7b ≤ n && n ≤ 0x7e) ||
  n == 0x201c || n == 0x201d || n == 0x2018 || n == 0x2019 ||
  n == 0x300a || n == 0x300b || n == 0x3008 || n == 0x3009 ||
  n == 0x2039 || n == 0x203a || n == 0xab || n == 0xbb ||
  n == 0x201e || n == 0x201f || n == 0x2032 || n == 0x2033 ||
  n == 0x2035 || n == 0x3003 || n == 0xff02 || n == 0x3010 || n == 0x3011

/-- A word character for the regex class `\w` restricted to the
character repertoire this development instantiates theorems at: ASCII
alphanumerics, underscore, and CJK Unified Ideographs.  (Python's
unicode `\w` additionally covers letters of other scripts.) -/
def isWordChar (c : Char) : Bool :=
  let n := c.toNat
  (0x30 ≤ n && n ≤ 0x39) || (0x41 ≤ n && n ≤ 0x5a) ||
  (0x61 ≤ n && n ≤ 0x7a) || c == '_' || (0x4e00 ≤ n && n ≤ 0x9fff)

/-- Character kept by `re.sub(r"[^一-鿿\w\.\-]+", "", text)`:
CJK Unified Ideographs, word characters, dot, hyphen. -/
def isIdKeepChar (c : Char) : Bool :=
  isWordChar c || c == '.' || c == '-'

/-- `clean_filename_keep_chinese`: delete the garbage set via
`str.translate`, then delete every character outside the keep class. -/
def cleanFilenameKeepChinese (s : String) : String :=
  ⟨(s.data.filter (fun c => !(isGarbageChar c))).filter isIdKeepChar⟩

/-- The `content_for_hash` argument of `generate_stable_doc_id`, which
is `bytes` for file/base64 sources and `str` for text/uri sources. -/
inductive HashContent where
  | bytes (b : List Nat)
  | str (s : String)

/-- The unified byte conversion performed inside
`generate_stable_doc_id` (`str` values are UTF-8 encoded). -/
def HashContent.toBytes : HashContent → List Nat
  | .bytes b => b
  | .str s => utf8Encode s

/-- `generate_stable_doc_id`: return the stripped preferred id when one
is present and truthy after stripping; otherwise hash the cleaned file
name, a two-zero-byte separator and the content bytes with SHA-256, and
return the f-string `"{source_system}_"` prefix (None renders as
"None") followed by the first 16 hex digits. -/
def generateStableDocId (contentForHash : HashContent) (fileName : String)
    (preferred : Option String) (sourceSystem : Option String)
    (includeFilename : Bool) : String :=
  let headBytes :=
    if includeFilename then
      utf8Encode (cleanFilenameKeepChinese fileName) ++ [0, 0]
    else []
  let hashed := pyStr sourceSystem ++ "_" ++
    (sha256Hex (headBytes ++ contentForHash.toBytes)).take 16
  match preferred with
  | some p => if p != "" && pyStrip p != "" then pyStrip p else hashed
  | none => hashed

/-- The fields of the pipeline Item dict that `IdProcessor.process`
reads.  `none` models an absent key. -/
structure IdItem where
  file_name : Option String := none
  binary : Option (List Nat) := none
  raw_text : Option String := none
  uri : Option String := none
  user_metadata : List (String × String) := []
  doc_id : Option String := none
  business_id : Option String := none
  archive_no : Option String := none
  id : Option String := none

/-- Python truthiness of an optional byte string. -/
def bytesTruthy : Option (List Nat) → Bool
  | none => false
  | some b => !(b == [])

/-- The first truthy value of a Python `or`-chain over optional
strings; all-falsy chains behave like `None` for the uses below. -/
def orChain : List (Option String) → Option String
  | [] => none
  | o :: rest => if strTruthy o then o else orChain rest

/-- `IdProcessor.process`: choose the hash content from
`binary or raw_text or uri` (falling back to the sentinel string
"no_content"), pick the preferred id from `user_metadata["doc_id"] or
data["doc_id"] or data["business_id"] or data["archive_no"] or
data["id"]`, and call `generate_stable_doc_id` with
`source_system = user_metadata.get("source_system")` and
`include_filename=True`.  The returned string is stored into both
`data["doc_id"]` and `data["metadata"]["doc_id"]`. -/
def idProcess (d : IdItem) : String :=
  let contentForHash : HashContent :=
    if bytesTruthy d.binary then .bytes (d.binary.getD [])
    else if strTruthy d.raw_text then .str (d.raw_text.getD "")
    else if strTruthy d.uri then .str (d.uri.getD "")
    else .str "no_content"
  let fileName := d.file_name.getD "unknown_source"
  let preferred := orChain [pyGet d.user_metadata "doc_id", d.doc_id,
    d.business_id, d.archive_no, d.id]
  generateStableDocId contentForHash fileName preferred
    (pyGet d.user_metadata "source_system") true

-- ===================================================================
-- app/sources/base64_source.py and app/sources/file_source.py
-- ===================================================================

/-- The value of one character in the base64 alphabet, `none` outside
it (the `table_a2b_base64` lookup of CPython's binascii module). -/
def b64Val (c : Char) : Option Nat :=
  let n := c.toNat
  if 0x41 ≤ n && n ≤ 0x5a then some (n - 0x41)
  else if 0x61 ≤ n && n ≤ 0x7a then some (n - 0x61 + 26)
  else if 0x30 ≤ n && n ≤ 0x39 then some (n - 0x30 + 52)
  else if c == '+' then some 62
  else if c == '/' then some 63
  else none

/-- Main loop of CPython's `binascii.a2b_base64`.  State: `quadPos`
(position in the current 4-character group), `leftchar` (pending bits),
`pads` (padding characters seen for the current group),
`padStarted`, and the output bytes accumulated in reverse. -/
def a2bB64Go (strict : Bool) : List Char → Nat → Nat → Nat → Bool →
    List Nat → Except String (List Nat)
  | [], quadPos, _, _, _, acc =>
      if quadPos == 0 then .ok acc.reverse
      else if quadPos == 1 then
        .error "Invalid base64-encoded string: number of data characters cannot be 1 more than a multiple of 4"
      else .error "Incorrect padding"
  | c :: rest, quadPos, leftchar, pads, padStarted, acc =>
      if c == '=' then
        if strict && quadPos == 0 then .error "Leading padding not allowed"
        else if quadPos ≥ 2 && quadPos + (pads + 1) ≥ 4 then
          if strict && rest != [] then .error "Excess data after padding"
          else .ok acc.reverse
        else a2bB64Go strict rest quadPos leftchar (pads + 1) true acc
      else
        match b64Val c with
        | none =>
            if strict then .error "Only base64 data is allowed"
            else a2bB64Go strict rest quadPos leftchar pads padStarted acc
        | some v =>
            if strict && padStarted then
              .error "Discontinuous padding not allowed"
            else match quadPos with
              | 0 => a2bB64Go strict rest 1 v 0 padStarted acc
              | 1 => a2bB64Go strict rest 2 (v % 16) 0 padStarted
                  ((leftchar * 4 + v / 16) :: acc)
              | 2 => a2bB64Go strict rest 3 (v % 4) 0 padStarted
                  ((leftchar * 16 + v / 4) :: acc)
              | _ => a2bB64Go strict rest 0 0 0 padStarted
                  ((leftchar * 64 + v) :: acc)

/-- `base64.b64decode(s, validate=strict)` on a `str` argument: the
string is first ASCII-encoded (non-ASCII raises), then fed to
`binascii.a2b_base64`.  With `validate=False` (the source's call),
characters outside the alphabet are silently discarded. -/
def pyB64Decode (strict : Bool) (s : String) : Except String (List Nat) :=
  if s.data.all (fun c => c.toNat < 128) then
    a2bB64Go strict s.data 0 0 0 false []
  else .error "string argument should contain only ASCII characters"

/-- A string is valid base64 when strict decoding
(`base64.b64decode(s, validate=True)`) succeeds. -/
def isValidBase64 (s : String) : Bool :=
  (pyB64Decode true s).isOk

/-- The Item dict produced by the byte-bearing sources. -/
structure SrcItem where
  file_name : String
  binary : List Nat
  user_metadata : Option (List (String × String)) := none
deriving DecidableEq

/-- `Base64Source.read`: decode with `base64.b64decode(s)` (non-strict);
a decode exception is re-raised as `RuntimeError("Invalid base64
content: ...")`; on success return the single Item dict
`{file_name, binary}`. -/
def base64SourceRead (filename : String) (b64Str : String) :
    Except String SrcItem :=
  match pyB64Decode false b64Str with
  | .error e => .error ("Invalid base64 content: " ++ e)
  | .ok content => .ok ⟨filename, content, none⟩

/-- `FileSource.read`: return the Item dict `{file_name, binary}`,
adding `user_metadata` only when it is truthy. -/
def fileSourceRead (filename : String) (content : List Nat)
    (userMetadata : Option (List (String × String))) : SrcItem :=
  ⟨filename, content,
   match userMetadata with
   | some l => if l == [] then none else some l
   | none => none⟩

/-- Sanity check: "aGVsbG8=" decodes to the bytes of "hello". -/
theorem pyB64Decode_hello :
    pyB64Decode false "aGVsbG8=" = .ok (utf8Encode "hello") := by
  rfl

-- ===================================================================
-- app/sources/web_crawler_source.py (scope predicate)
-- ===================================================================

/-- ASCII lower-casing of one character (`str.lower` restricted to the
ASCII repertoire of host names). -/
def asciiLower (c : Char) : Char :=
  if 0x41 ≤ c.toNat && c.toNat ≤ 0x5a then Char.ofNat (c.toNat + 32) else c

/-- `str.lower` on an ASCII string. -/
def lowerStr (s : String) : String :=
  ⟨s.data.map asciiLower⟩

/-- Python `s.rstrip("/")`. -/
def rstripSlash (s : String) : String :=
  ⟨(s.data.reverse.dropWhile (· == '/')).reverse⟩

/-- The remainder of a URL after the first "://" (none when the URL has
no scheme separator). -/
def afterScheme : List Char → Option (List Char)
  | ':' :: '/' :: '/' :: rest => some rest
  | _ :: rest => afterScheme rest
  | [] => none

/-- `urllib.parse.urlparse(url).netloc` for scheme-qualified URLs: the
text between "://" and the first "/", "?" or "#". -/
def urlNetloc (url : String) : String :=
  match afterScheme url.data with
  | some rest => ⟨rest.takeWhile (fun c => c != '/' && c != '?' && c != '#')⟩
  | none => ""

/-- `urllib.parse.urlparse(url).path` for scheme-qualified URLs: from
the first "/" after the authority up to "?" or "#".  A URL without a
scheme separator is all path, as in urlparse. -/
def urlPath (url : String) : String :=
  match afterScheme url.data with
  | some rest =>
      ⟨(rest.dropWhile (fun c => c != '/' && c != '?' && c != '#')).takeWhile
        (fun c => c != '?' && c != '#')⟩
  | none => ⟨url.data.takeWhile (fun c => c != '?' && c != '#')⟩

/-- `os.path.dirname` (posixpath): everything up to the final "/", with
trailing slashes stripped unless the head consists only of slashes. -/
def osPathDirname (p : String) : String :=
  let cs := p.data
  let i := (cs.reverse.findIdx? (· == '/')).map (fun j => cs.length - j)
  match i with
  | none => ""
  | some i =>
      let head := cs.take i
      if head.all (· == '/') then ⟨head⟩
      else ⟨(head.reverse.dropWhile (· == '/')).reverse⟩

/-- `_get_base_domain`: the last two dot-separated labels of the host
(or the whole host when it has fewer than two labels). -/
def getBaseDomain (netloc : String) : String :=
  let parts := splitOnChar '.' netloc.data
  if parts.length ≥ 2 then
    ⟨joinWithSep ['.'] (parts.drop (parts.length - 2))⟩
  else netloc

/-- The scope-relevant state computed by `WebCrawlerSource.__init__`:
the start URL is first `rstrip("/")`-ed, then parsed; the path prefix
is the parsed path itself when it ends with "/" and otherwise
`os.path.dirname(path) + "/"`. -/
structure CrawlerScope where
  startNetloc : String
  startBaseDomain : String
  startPathPfx : String
  allowSubdomains : Bool
  restrictToPath : Bool
deriving DecidableEq

/-- Build the scope state from the constructor arguments, exactly as
`WebCrawlerSource.__init__` does. -/
def mkCrawlerScope (startUrl : String) (allowSubdomains restrictToPath : Bool) :
    CrawlerScope :=
  let stripped := rstripSlash startUrl
  let netloc := lowerStr (urlNetloc stripped)
  let path := urlPath stripped
  { startNetloc := netloc
    startBaseDomain := getBaseDomain netloc
    startPathPfx :=
      if hasSfx ['/'] path.data then path else osPathDirname path ++ "/"
    allowSubdomains := allowSubdomains
    restrictToPath := restrictToPath }

/-- `WebCrawlerSource._is_url_in_scope`: the host must equal the start
host or (when subdomains are allowed) end with "." + the base domain;
when `restrict_to_path` is set the path must additionally start with
the stored path prefix. -/
def isUrlInScope (sc : CrawlerScope) (url : String) : Bool :=
  let netloc := lowerStr (urlNetloc url)
  let path := if urlPath url == "" then "/" else urlPath url
  let hostOk :=
    netloc == sc.startNetloc ||
    (sc.allowSubdomains &&
      hasSfx ('.' :: sc.startBaseDomain.data) netloc.data)
  hostOk && (!sc.restrictToPath || hasPfx sc.startPathPfx.data path.data)

-- ===================================================================
-- app/orchestrator/pipeline_runner.py
-- ===================================================================

/-- An Item dict flowing through the orchestrator; values are modelled
as strings (the fields the orchestrator itself inspects —
`file_name`, `doc_id`, `status`, `source` — are strings). -/
abbrev PDict : Type := List (String × String)

/-- Python `dict.get(k)` on an Item dict. -/
def pdGet (d : PDict) (k : String) : Option String :=
  (d.find? (fun kv => kv.1 == k)).map (·.2)

/-- Set one key of a dict: replace in place when present (preserving
insertion order), append otherwise — CPython dict assignment. -/
def pdSet (d : PDict) (k : String) (v : String) : PDict :=
  if d.any (fun kv => kv.1 == k) then
    d.map (fun kv => if kv.1 == k then (k, v) else kv)
  else d ++ [(k, v)]

/-- Python `data.update(out)`: assign every key of `out` in order. -/
def pdUpdate (d u : PDict) : PDict :=
  u.foldl (fun d kv => pdSet d kv.1 kv.2) d

/-- The value a processor's `process` call produces, as the
orchestrator's type test sees it: a mapping (a dict of field updates),
a non-mapping value with its Python truthiness, or a raised
exception. -/
inductive ProcResult where
  | dict (u : PDict)
  | nonDict (truthy : Bool)
  | raises (msg : String)

/-- A processor as the orchestrator sees it: a class name, the declared
`order` attribute (`none` when the attribute is missing, in which case
`getattr(p, "order", 100)` yields 100) and the `process` function. -/
structure Processor where
  name : String
  order : Option Nat := none
  process : PDict → ProcResult

/-- `getattr(p, "order", 100)`. -/
def effOrder (p : Processor) : Nat :=
  p.order.getD 100

/-- Stable insertion of a processor into an already-sorted list of
processors that all came later in the original registration order: `p`
moves past elements with a strictly smaller key and lands before the
first element with an equal or larger key, so ties keep registration
order. -/
def insertProc (p : Processor) : List Processor → List Processor
  | [] => [p]
  | q :: qs =>
      if effOrder q < effOrder p then q :: insertProc p qs
      else p :: q :: qs

/-- `sorted(processors, key=lambda p: getattr(p, "order", 100))`:
Python's sort is stable; a stable sort by a total key is unique, so the
left-to-right stable insertion sort below coincides with it. -/
def sortProcessors : List Processor → List Processor
  | [] => []
  | p :: ps => insertProc p (sortProcessors ps)

/-- A sink's `write`; a raised exception is an `error`. -/
def Sink : Type := PDict → Except String Unit

/-- The processor loop of `PipelineRunner.run_single`: each result is
coerced by `out = processor.process(...) or {}`; a falsy non-mapping
therefore becomes the empty update, a truthy non-mapping fails the
`isinstance(out, dict)` test and raises, an exception from the
processor is caught and re-raised, and a mapping is merged by
`data.update(out)`. -/
def foldProcs : List Processor → PDict → Except String PDict
  | [], d => .ok d
  | p :: ps, d =>
      match p.process d with
      | .raises _ =>
          .error ("Pipeline aborted due to failure in processor " ++ p.name)
      | .nonDict true =>
          .error ("Pipeline aborted due to failure in processor " ++ p.name)
      | .nonDict false => foldProcs ps (pdUpdate d [])
      | .dict u => foldProcs ps (pdUpdate d u)

/-- The sink loop of `run_single`; a sink exception re-raises. -/
def runSinks : List Sink → PDict → Except String Unit
  | [], _ => .ok ()
  | s :: ss, d =>
      match s d with
      | .error e => .error e
      | .ok _ => runSinks ss d

/-- The per-Item summary entry.  (`chunk_count`, `embedding_count`,
`embedding_dim` and `elapsed_ms` are numeric fields computed from
list-valued Item fields; they are not modelled here — the claims below
concern `file_name`, `status` and `error`.) -/
structure Summary where
  file_name : Option String := none
  doc_id : Option String := none
  status : String
  source : Option String := none
  error : Option String := none
deriving DecidableEq

/-- `_build_summary` on the final Item dict: `status` defaults to
"ok". -/
def buildSummary (d : PDict) : Summary :=
  { file_name := pdGet d "file_name"
    doc_id := pdGet d "doc_id"
    status := (pdGet d "status").getD "ok"
    source := pdGet d "source" }

/-- `run_single` on one Item dict with an already-sorted processor
list: processors, then sinks, then the summary; any failure
propagates. -/
def runSingle (procs : List Processor) (sinks : List Sink) (d : PDict) :
    Except String Summary :=
  match foldProcs procs d with
  | .error e => .error e
  | .ok d' =>
      match runSinks sinks d' with
      | .error e => .error e
      | .ok _ => .ok (buildSummary d')

/-- `PipelineRunner.run` on a list-returning source: processors are
sorted once in `__init__`; every Item runs through `run_single`; a
failed Item contributes `{file_name (from the original Item), status:
"failed", error}` and its siblings are unaffected.  (`as_completed`
surfaces summaries in completion order; the model uses input order —
the multiset of entries and each entry's content are the same.) -/
def runnerRun (procs : List Processor) (sinks : List Sink)
    (items : List PDict) : List Summary :=
  items.map (fun d =>
    match runSingle (sortProcessors procs) sinks d with
    | .ok s => s
    | .error e =>
        { file_name := pdGet d "file_name", status := "failed",
          error := some e })

-- ===================================================================
-- app/pipelines/embed_processor.py
-- ===================================================================

/-- One entry of the `embeddings` Item field: `{"text": chunk,
"embedding": vec}`. -/
structure Embedding where
  text : String
  embedding : List Int
deriving DecidableEq

/-- `EmbedProcessor.process`: with no client or an empty (or absent)
`chunks` field the result is `{"embeddings": []}`; otherwise one
embedding per chunk, in order, carrying the chunk text. -/
def embedProcess (client : Option (String → List Int))
    (chunks : List String) : List Embedding :=
  match client with
  | none => []
  | some emb =>
      if chunks == [] then []
      else chunks.map (fun c => { text := c, embedding := emb c })

-- ===================================================================
-- app/utility/utils.py and app/pipelines/assemble_processor.py
-- ===================================================================

/-- `generate_professional_uuid_id`: UUIDv5 of
`"com.geelink.2025:" + doc_id` in the DNS namespace.  The SHA-1-based
`uuid.uuid5` itself is kept as a function parameter `uuid5`; the claims
below do not depend on its digits, only on the two call sites receiving
the same argument. -/
def generateProfessionalUuidId (uuid5 : String → String) (docId : String) :
    String :=
  uuid5 ("com.geelink.2025:" ++ docId)

/-- Zero-padded six-digit rendering of an index (`f"{idx:06d}"`). -/
def pad6 (n : Nat) : String :=
  let s := toString n
  ⟨List.replicate (6 - s.length) '0'⟩ ++ s

/-- The Item fields `AssembleProcessor.process` reads (after it deletes
`binary`).  `metadata` is the normalized-metadata dict; its values are
modelled as strings. -/
structure AsmInput where
  raw_text : String := ""
  clean_text : String := ""
  chunks : List String := []
  embeddings : List Embedding := []
  metadata : List (String × String) := []
  file_name : String := ""
  source_path : String := ""

/-- The parent persistence record (claim-relevant fields; the
remaining fields are metadata copies that no claim mentions). -/
structure MainDoc where
  id : String
  doc_id : String
  doc_type : String
  raw_content : String
  content : String
  source_path : String
  chunk_count : Nat
deriving DecidableEq

/-- One chunk persistence record. -/
structure ChunkDoc where
  id : String
  doc_id : String
  doc_type : String
  parent_id : String
  chunk_index : Nat
  chunk_content : String
  glVector : List Int
deriving DecidableEq

/-- The update returned by `AssembleProcessor.process`:
`solr_docs = [main_doc, *chunk_docs]`, `vector_docs = chunk_docs`,
plus the `doc_id`.  `solrHead` is `solr_docs[0]`, i.e. the main
document. -/
structure AsmOutput where
  solrHead : MainDoc
  vectorDocs : List ChunkDoc
  docId : String

/-- `AssembleProcessor.process`: `doc_id` comes from
`metadata.get("doc_id") or str(uuid.uuid4())` (`freshId` stands for the
random fallback), the parent record's `chunk_count` is
`len(embeddings or [])`, and the chunk records are built from
`enumerate(zip(chunks, embeddings))` with `parent_id = main_doc["id"]`. -/
def assembleProcess (uuid5 : String → String) (freshId : String)
    (inp : AsmInput) : AsmOutput :=
  let docId :=
    if strTruthy (pyGet inp.metadata "doc_id") then
      (pyGet inp.metadata "doc_id").getD ""
    else freshId
  let mainDoc : MainDoc :=
    { id := generateProfessionalUuidId uuid5 docId
      doc_id := docId
      doc_type := "document"
      raw_content := inp.raw_text
      content := inp.clean_text
      source_path := inp.source_path
      chunk_count := inp.embeddings.length }
  let chunkDocs := (inp.chunks.zip inp.embeddings).enum.map
    (fun p =>
      { id := generateProfessionalUuidId uuid5
          (docId ++ "_chunk_" ++ pad6 p.1)
        doc_id := docId ++ "_chunk_" ++ pad6 p.1
        doc_type := "chunk"
        parent_id := mainDoc.id
        chunk_index := p.1
        chunk_content := p.2.1
        glVector := p.2.2.embedding : ChunkDoc })
  { solrHead := mainDoc, vectorDocs := chunkDocs, docId := docId }

-- ===================================================================
-- app/sources/email_source.py
-- ===================================================================

/-- One message of the mailbox model: its IMAP UID and the file names
of its attachment parts. -/
structure EmailMsg where
  uid : Nat
  attachments : List String := []

/-- An Item produced by the email source: the body Item of a message,
or one attachment Item. -/
inductive ImapItem where
  | body (uid : Nat)
  | attachment (uid : Nat) (name : String)
deriving DecidableEq

/-- Ascending insertion for the numeric UID sort. -/
def insertNat (n : Nat) : List Nat → List Nat
  | [] => [n]
  | m :: ms => if m ≤ n then m :: insertNat n ms else n :: m :: ms

/-- The set contents of a UID list (first occurrences kept; the Python
`set` iteration order is irrelevant because the result is sorted
next). -/
def dedupNat (l : List Nat) : List Nat :=
  l.foldl (fun acc u => if acc.contains u then acc else acc ++ [u]) []

/-- `sorted(list(set(uid_list)), key=int)`: deduplicate, then sort
ascending by numeric value. -/
def sortedUniqueUids (uids : List Nat) : List Nat :=
  (dedupNat uids).foldl (fun acc u => insertNat u acc) []

/-- Python's tail slice `l[-n:]`: the last `n` elements, or the whole
list when `n = 0`. -/
def pySliceLast (n : Nat) (l : List Nat) : List Nat :=
  if n == 0 then l else l.drop (l.length - n)

/-- The Items of one successfully fetched message: the body Item
followed by one Item per attachment. -/
def fetchItems (m : EmailMsg) : List ImapItem :=
  .body m.uid :: m.attachments.map (fun a => .attachment m.uid a)

/-- One run of `EmailSource._async_read` against a mailbox snapshot:
collect the UIDs, deduplicate and sort them numerically, subtract
`seen_uids`, keep the last `max_emails`, then fetch each dispatched UID
(`fetchOk` tells which per-UID fetches succeed; a failed fetch
contributes no Items and does **not** mark its UID as seen).  Returns
the produced Items and the updated `seen_uids` that the run persists.
(The final sort of the results by descending `content_score` permutes
Items only and is not modelled; the claims below concern whether the
result is empty.)  `emailFetchStep` is the per-UID body: a successful
fetch appends the message's Items and marks the UID seen; a failed
fetch contributes nothing and leaves the UID unseen. -/
def emailFetchStep (mailbox : List EmailMsg) (fetchOk : Nat → Bool)
    (st : List ImapItem × List Nat) (u : Nat) : List ImapItem × List Nat :=
  if fetchOk u then
    match mailbox.find? (fun m => m.uid == u) with
    | some m => (st.1 ++ fetchItems m, st.2 ++ [u])
    | none => st
  else st

def emailRead (mailbox : List EmailMsg) (seen : List Nat) (maxEmails : Nat)
    (fetchOk : Nat → Bool) : List ImapItem × List Nat :=
  let uidList := sortedUniqueUids (mailbox.map (·.uid))
  let newUids := uidList.filter (fun u => !(seen.contains u))
  if newUids == [] then ([], seen)
  else
    (pySliceLast maxEmails newUids).foldl (emailFetchStep mailbox fetchOk)
      ([], seen)

-- ===================================================================
-- app/pipelines/clean_processor.py
-- ===================================================================

/-- CJK Unified Ideograph in the range the clean processor's regexes
use (`一` .. `龥`). -/
def isCJK (c : Char) : Bool :=
  0x4e00 ≤ c.toNat && c.toNat ≤ 0x9fa5

/-- ASCII digit (`\d` for the inputs considered here). -/
def isDigitCh (c : Char) : Bool :=
  0x30 ≤ c.toNat && c.toNat ≤ 0x39

/-- The dash class `[—–\-─━—]` of the cross-page rules. -/
def isDashA (c : Char) : Bool :=
  c.toNat == 0x2014 || c.toNat == 0x2013 || c == '-' ||
  c.toNat == 0x2500 || c.toNat == 0x2501

/-- The dash class `[-─━—~～]` of the hyphenation-repair rules. -/
def isDashB (c : Char) : Bool :=
  c == '-' || c.toNat == 0x2500 || c.toNat == 0x2501 ||
  c.toNat == 0x2014 || c == '~' || c.toNat == 0xff5e

/-- The class `[-─━—~～\.·_ ]` of the horizontal-rule line filter. -/
def isRuleChar (c : Char) : Bool :=
  isDashB c || c == '.' || c.toNat == 0xb7 || c == '_' || c == ' '

/-- Terminal punctuation `[。！？；]`. -/
def isTermPunct (c : Char) : Bool :=
  c.toNat == 0x3002 || c.toNat == 0xff01 || c.toNat == 0xff1f ||
  c.toNat == 0xff1b

/-- Soft punctuation `[，、：；”’）】]`. -/
def isSoftPunct (c : Char) : Bool :=
  c.toNat == 0xff0c || c.toNat == 0x3001 || c.toNat == 0xff1a ||
  c.toNat == 0xff1b || c.toNat == 0x201d || c.toNat == 0x2019 ||
  c.toNat == 0xff09 || c.toNat == 0x3011

/-- Lone punctuation `[。．.,，、]` of the punctuation-only-line rule. -/
def isLonePunct (c : Char) : Bool :=
  c.toNat == 0x3002 || c.toNat == 0xff0e || c == '.' || c == ',' ||
  c.toNat == 0xff0c || c.toNat == 0x3001

/-- The zero-width / replacement-character class
`[￼�​-‏⁠-⁯﻿￰-￿]`. -/
def isZeroWidth (c : Char) : Bool :=
  c.toNat == 0xfffc || c.toNat == 0xfffd ||
  (0x200b ≤ c.toNat && c.toNat ≤ 0x200f) ||
  (0x2060 ≤ c.toNat && c.toNat ≤ 0x206f) ||
  c.toNat == 0xfeff || (0xfff0 ≤ c.toNat && c.toNat ≤ 0xffff)

/-- The paragraph-terminal class `[。！？;；:：”’)]` of the smart
paragraph merge. -/
def isCnTerminal (c : Char) : Bool :=
  c.toNat == 0x3002 || c.toNat == 0xff01 || c.toNat == 0xff1f ||
  c == ';' || c.toNat == 0xff1b || c == ':' || c.toNat == 0xff1a ||
  c.toNat == 0x201d || c.toNat == 0x2019 || c == ')'

/-- The whitespace class `[\s ​　]` used by the line-wise
collapse and by the final CJK-gap collapse (U+00A0 and U+3000 are
already `\s`; U+200B is added explicitly by the source). -/
def isCollapseWs (c : Char) : Bool :=
  isPySpace c || c.toNat == 0x200b

/-- Leftmost non-overlapping substitution, the scanning discipline of
`re.sub`: `tryM` attempts a match at the current position and returns
the replacement together with the rest of the input after the match
(every pattern below consumes at least one character); on failure the
scanner advances one character.  `fuel` bounds the recursion by the
input length. -/
def scanSub (tryM : List Char → Option (List Char × List Char)) :
    Nat → List Char → List Char
  | 0, cs => cs
  | _ + 1, [] => []
  | fuel + 1, c :: rest =>
      match tryM (c :: rest) with
      | some (rep, rest') => rep ++ scanSub tryM fuel rest'
      | none => c :: scanSub tryM fuel rest

/-- Run a leftmost substitution over a whole character list. -/
def runSub (tryM : List Char → Option (List Char × List Char))
    (cs : List Char) : List Char :=
  scanSub tryM cs.length cs

/-- A whitespace run that contains at least one newline, the shape
matched by `\s*\n+\s*` (and by `\s*\n\s*`): returns the rest of the
input after the maximal whitespace run when the run contains a
newline. -/
def wsRunWithNl (cs : List Char) : Option (List Char) :=
  let run := cs.takeWhile isPySpace
  if run.contains '\n' then some (cs.drop run.length) else none

/-- Matcher for `,\s*\n+\s*([一-龥])` with replacement `", \1"`. -/
def tryCommaJoin : List Char → Option (List Char × List Char)
  | ',' :: rest =>
      match wsRunWithNl rest with
      | some (c2 :: rest') =>
          if isCJK c2 then some ([',', ' ', c2], rest') else none
      | _ => none
  | _ => none

/-- Matcher for `、\s*\n+\s*([一-龥])` with replacement `"、\1"`. -/
def tryDunJoin : List Char → Option (List Char × List Char)
  | c :: rest =>
      if c.toNat == 0x3001 then
        match wsRunWithNl rest with
        | some (c2 :: rest') =>
            if isCJK c2 then some ([c, c2], rest') else none
        | _ => none
      else none
  | _ => none

/-- Matcher for `[—–\-─━—]+\s*\n+\s*\d+` with empty replacement. -/
def tryDashNlNum (cs : List Char) : Option (List Char × List Char) :=
  let dashes := cs.takeWhile isDashA
  if dashes == [] then none
  else
    match wsRunWithNl (cs.drop dashes.length) with
    | some rest' =>
        let digits := rest'.takeWhile isDigitCh
        if digits == [] then none
        else some ([], rest'.drop digits.length)
    | none => none

/-- Matcher for `\d+\s*[—–\-─━—]+` with empty replacement. -/
def tryNumDash (cs : List Char) : Option (List Char × List Char) :=
  let digits := cs.takeWhile isDigitCh
  if digits == [] then none
  else
    let afterWs := (cs.drop digits.length).dropWhile isPySpace
    let dashes := afterWs.takeWhile isDashA
    if dashes == [] then none
    else some ([], afterWs.drop dashes.length)

/-- Per-line reading of the MULTILINE blanking
`re.sub(p, "", text, flags=re.M)` for a line pattern `^...$`: matching
lines lose their content, the newlines stay. -/
def blankLines (matchLine : List Char → Bool) (cs : List Char) :
    List Char :=
  joinWithSep ['\n']
    ((splitOnChar '\n' cs).map (fun l => if matchLine l then [] else l))

/-- Line shape `^\s*[—–\-─━—]+\s*$`. -/
def isDashLine (l : List Char) : Bool :=
  let afterWs := l.dropWhile isPySpace
  let dashes := afterWs.takeWhile isDashA
  dashes != [] && (afterWs.drop dashes.length).all isPySpace

/-- Line shape `^\s*\d+\s*$`. -/
def isNumLine (l : List Char) : Bool :=
  let afterWs := l.dropWhile isPySpace
  let digits := afterWs.takeWhile isDigitCh
  digits != [] && (afterWs.drop digits.length).all isPySpace

/-- Line shape `^\s*[。．.,，、]\s*$` (exactly one punctuation
character). -/
def isLonePunctLine (l : List Char) : Bool :=
  match l.dropWhile isPySpace with
  | c :: rest => isLonePunct c && rest.all isPySpace
  | [] => false

/-- Matcher for `([。！？；])\s*\n+\s*` with replacement `"\1\n\n"`. -/
def tryTerminalBreak : List Char → Option (List Char × List Char)
  | c :: rest =>
      if isTermPunct c then
        match wsRunWithNl rest with
        | some rest' => some ([c, '\n', '\n'], rest')
        | none => none
      else none
  | _ => none

/-- Matcher for `([，、：；”’）】])\s*\n+\s*` with replacement
`"\1 "`. -/
def trySoftJoin : List Char → Option (List Char × List Char)
  | c :: rest =>
      if isSoftPunct c then
        match wsRunWithNl rest with
        | some rest' => some ([c, ' '], rest')
        | none => none
      else none
  | _ => none

/-- Matcher for `([一-龥])\n+([一-龥])` with replacement `"\1\2"`. -/
def tryCjkNlJoin : List Char → Option (List Char × List Char)
  | c1 :: rest =>
      if isCJK c1 then
        let nls := rest.takeWhile (· == '\n')
        if nls == [] then none
        else
          match rest.drop nls.length with
          | c2 :: rest' => if isCJK c2 then some ([c1, c2], rest') else none
          | [] => none
      else none
  | _ => none

/-- Matcher for `(\w+)[-─━—~～]\s*\n\s*(\w+)` with replacement
`"\1\2"`. -/
def tryHyphenNlJoin (cs : List Char) : Option (List Char × List Char) :=
  let w1 := cs.takeWhile isWordChar
  if w1 == [] then none
  else
    match cs.drop w1.length with
    | d :: rest =>
        if isDashB d then
          match wsRunWithNl rest with
          | some rest' =>
              let w2 := rest'.takeWhile isWordChar
              if w2 == [] then none
              else some (w1 ++ w2, rest'.drop w2.length)
          | none => none
        else none
    | [] => none

/-- Matcher for `(\w+)\s*[-─━—~～]\s+(\w+)` with replacement
`"\1\2"`. -/
def tryHyphenSpaceJoin (cs : List Char) : Option (List Char × List Char) :=
  let w1 := cs.takeWhile isWordChar
  if w1 == [] then none
  else
    match (cs.drop w1.length).dropWhile isPySpace with
    | d :: rest =>
        if isDashB d then
          let ws := rest.takeWhile isPySpace
          if ws == [] then none
          else
            let w2 := (rest.drop ws.length).takeWhile isWordChar
            if w2 == [] then none
            else some (w1 ++ w2, (rest.drop ws.length).drop w2.length)
        else none
    | [] => none

/-- Prefix match `^第?\s*\d+\s*页` of the page-marker line filter. -/
def matchPageMarker (l : List Char) : Bool :=
  let l1 := match l with
    | c :: rest => if c.toNat == 0x7b2c then rest else l
    | [] => l
  let afterWs := l1.dropWhile isPySpace
  let digits := afterWs.takeWhile isDigitCh
  digits != [] &&
    match (afterWs.drop digits.length).dropWhile isPySpace with
    | c :: _ => c.toNat == 0x9875
    | [] => false

/-- Full match `^\d+\s*/\s*\d+$` of the page-number line filter. -/
def matchNumSlashNum (l : List Char) : Bool :=
  let d1 := l.takeWhile isDigitCh
  d1 != [] &&
    match (l.drop d1.length).dropWhile isPySpace with
    | '/' :: rest =>
        let d2 := (rest.dropWhile isPySpace).takeWhile isDigitCh
        d2 != [] && ((rest.dropWhile isPySpace).drop d2.length) == []
    | _ => false

/-- Tail `\s*\d*\s*$` of the horizontal-rule line filter. -/
def ruleTail (cs : List Char) : Bool :=
  let a := cs.dropWhile isPySpace
  ((a.dropWhile isDigitCh).dropWhile isPySpace) == []

/-- Prefix-anchored match of `^[-─━—~～\.·_ ]{8,}\s*\d*\s*$`: at least
eight rule characters followed by the tail (the split point is
searched, matching the engine's backtracking). -/
def matchRuleRun (l : List Char) : Bool :=
  let maxP := (l.takeWhile isRuleChar).length
  (List.range (maxP + 1)).any (fun k => 8 ≤ k && ruleTail (l.drop k))

/-- Match of `^（?(机密|秘密|内部|保密).*?）?\s*$`: the lazy tail
`.*?）?\s*$` accepts any remainder of a newline-free line, so the
pattern reduces to an optional full-width parenthesis followed by one
of the four confidentiality words. -/
def matchConfid (l : List Char) : Bool :=
  let l1 := match l with
    | c :: rest => if c.toNat == 0xff08 then rest else l
    | [] => l
  match l1 with
  | a :: b :: _ =>
      (a.toNat == 0x673a && b.toNat == 0x5bc6) ||
      (a.toNat == 0x79d8 && b.toNat == 0x5bc6) ||
      (a.toNat == 0x5185 && b.toNat == 0x90e8) ||
      (a.toNat == 0x4fdd && b.toNat == 0x5bc6)
  | _ => false

/-- The three literal single-character or short lines dropped by the
filter (`l in ["页", "第 页", "第页"]`). -/
def isPageWordLine (l : List Char) : Bool :=
  l == [Char.ofNat 0x9875] ||
  l == [Char.ofNat 0x7b2c, ' ', Char.ofNat 0x9875] ||
  l == [Char.ofNat 0x7b2c, Char.ofNat 0x9875]

/-- The per-line filter at the top of `_l2_layout_noise_removal`:
blank-when-stripped lines are kept verbatim; a non-blank line is
dropped when its stripped form matches any of the noise shapes. -/
def l2KeepLine (line : List Char) : Bool :=
  let l := pyStripL line
  if l == [] then true
  else
    !(matchPageMarker l || matchNumSlashNum l || matchRuleRun l ||
      matchConfid l ||
      (l.all isDigitCh && l.length ≤ 10) ||
      isPageWordLine l)

/-- `_l2_layout_noise_removal`: drop noise lines, then apply the
comma/顿号 join rules, the cross-page dash rules, the per-line
blanking rules, zero-width removal, the lone-punctuation blanking, and
the broken-line repairs, in the order of the source. -/
def l2LayoutNoiseRemoval (cs : List Char) : List Char :=
  let kept := (splitOnChar '\n' cs).filter l2KeepLine
  let t := joinWithSep ['\n'] kept
  let t := runSub tryCommaJoin t
  let t := runSub tryDunJoin t
  let t := runSub tryDashNlNum t
  let t := runSub tryNumDash t
  let t := blankLines isDashLine t
  let t := blankLines isNumLine t
  let t := t.filter (fun c => !(isZeroWidth c))
  let t := blankLines isLonePunctLine t
  let t := runSub tryTerminalBreak t
  let t := runSub trySoftJoin t
  let t := runSub tryCjkNlJoin t
  let t := runSub tryHyphenNlJoin t
  let t := runSub tryHyphenSpaceJoin t
  t

/-- Sequential `text.replace("\r\n", "\n").replace("\r", "\n")`. -/
def replaceCRLF : List Char → List Char
  | '\r' :: '\n' :: rest => '\n' :: replaceCRLF rest
  | '\r' :: rest => '\n' :: replaceCRLF rest
  | c :: rest => c :: replaceCRLF rest
  | [] => []

/-- Matcher for the line-wise collapse `[\s ​　]+` with
replacement `" "`. -/
def tryWsCollapse (cs : List Char) : Option (List Char × List Char) :=
  match cs with
  | c :: _ =>
      if isCollapseWs c then
        some ([' '], cs.drop (cs.takeWhile isCollapseWs).length)
      else none
  | [] => none

/-- `str.isprintable` on the character repertoire handled here: C0/C1
controls, DEL, soft hyphen, non-space whitespace and the zero-width
characters are not printable. -/
def isPyPrintable (c : Char) : Bool :=
  !(c.toNat < 0x20 || c.toNat == 0x7f ||
    (0x80 ≤ c.toNat && c.toNat ≤ 0xa0) || c.toNat == 0xad ||
    isZeroWidth c || (isPySpace c && c != ' '))

/-- Matcher for `\[\w+:\s*\w+\]` with empty replacement. -/
def tryBracketTag : List Char → Option (List Char × List Char)
  | '[' :: rest =>
      let w1 := rest.takeWhile isWordChar
      if w1 == [] then none
      else
        match rest.drop w1.length with
        | ':' :: r2 =>
            let w2 := (r2.dropWhile isPySpace).takeWhile isWordChar
            if w2 == [] then none
            else
              match (r2.dropWhile isPySpace).drop w2.length with
              | ']' :: r3 => some ([], r3)
              | _ => none
        | _ => none
  | _ => none

/-- One iteration of the line-level cleaning loop: collapse whitespace
runs, strip; blank lines contribute `""`; short all-digit/punctuation
lines are dropped entirely; otherwise non-printable characters and
`[tag: value]` markers are removed and the stripped remainder is kept
(or `""` when it vanished). -/
def processLineOut (l : List Char) : List (List Char) :=
  let line := pyStripL (runSub tryWsCollapse l)
  if line == [] then [[]]
  else if line.all (fun c => isDigitCh c || !(isWordChar c)) &&
      line.length < 10 then []
  else
    let line2 := pyStripL (runSub tryBracketTag (line.filter isPyPrintable))
    if line2 == [] then [[]] else [line2]

/-- `re.search(r"[。！？;；:：”’)]\s*$", s)`: the last non-whitespace
character of `s` is paragraph-terminal. -/
def endsTerminal (s : List Char) : Bool :=
  match s.reverse.dropWhile isPySpace with
  | c :: _ => isCnTerminal c
  | [] => false

/-- The smart paragraph merge: blank lines flush the current paragraph
and are preserved as separators; a line following a paragraph whose
last line ends terminally closes that paragraph. -/
def paraMergeGo :
    List (List Char) → List (List Char) → List (List Char) →
      List (List Char)
  | [], paras, cur =>
      if cur == [] then paras
      else paras ++ [joinWithSep [' '] cur]
  | l :: rest, paras, cur =>
      if l == [] then
        let paras' :=
          if cur == [] then paras
          else paras ++ [joinWithSep [' '] cur]
        paraMergeGo rest (paras' ++ [[]]) []
      else
        if cur != [] && endsTerminal (cur.getLast?.getD []) then
          paraMergeGo rest (paras ++ [joinWithSep [' '] (cur ++ [l])]) []
        else paraMergeGo rest paras (cur ++ [l])

-- L5 compliance blacklist matchers, one per compiled pattern, in the
-- order of `BLACKLIST_PATTERNS`.

/-- Consume a literal character sequence. -/
def litMatch : List Char → List Char → Option (List Char)
  | [], cs => some cs
  | l :: ls, c :: cs => if c == l then litMatch ls cs else none
  | _ :: _, [] => none

/-- Consume a case-insensitive ASCII literal. -/
def litMatchCI : List Char → List Char → Option (List Char)
  | [], cs => some cs
  | l :: ls, c :: cs =>
      if asciiLower c == asciiLower l then litMatchCI ls cs else none
  | _ :: _, [] => none

/-- A character matched by `.` (anything but a newline). -/
def notNl (c : Char) : Bool := c != '\n'

/-- Lazy `.*?` followed by four digits: the shortest non-newline gap
after which four digits occur; returns the rest after those digits. -/
def lazyGapDigits4 : Nat → List Char → Option (List Char)
  | _, [] => none
  | 0, _ => none
  | fuel + 1, cs =>
      if (cs.take 4).length == 4 && (cs.take 4).all isDigitCh then
        some (cs.drop 4)
      else
        match cs with
        | c :: rest => if notNl c then lazyGapDigits4 fuel rest else none
        | [] => none

/-- Greedy bounded gap `.{0,maxGap}` followed by a literal: the engine
tries the largest gap first. -/
def greedyGapLit (maxGap : Nat) (tail : List Char) (cs : List Char) :
    Option (List Char) :=
  let limit := min maxGap (cs.takeWhile notNl).length
  ((List.range (limit + 1)).reverse.firstM
    (fun g => litMatch tail (cs.drop g)))

/-- `版权所有.*?\d{4}`. -/
def tryCopyright (cs : List Char) : Option (List Char × List Char) :=
  (litMatch [Char.ofNat 0x7248, Char.ofNat 0x6743, Char.ofNat 0x6240,
      Char.ofNat 0x6709] cs).bind
    (fun rest => (lazyGapDigits4 (rest.length + 1) rest).map
      (fun rest' => ([], rest')))

/-- `未经许可.{0,10}不得转载`. -/
def tryNoReprint (cs : List Char) : Option (List Char × List Char) :=
  (litMatch [Char.ofNat 0x672a, Char.ofNat 0x7ecf, Char.ofNat 0x8bb8,
      Char.ofNat 0x53ef] cs).bind
    (fun rest => (greedyGapLit 10 [Char.ofNat 0x4e0d, Char.ofNat 0x5f97,
        Char.ofNat 0x8f6c, Char.ofNat 0x8f7d] rest).map
      (fun rest' => ([], rest')))

/-- `未经书面.{0,10}授权`. -/
def tryNoWritten (cs : List Char) : Option (List Char × List Char) :=
  (litMatch [Char.ofNat 0x672a, Char.ofNat 0x7ecf, Char.ofNat 0x4e66,
      Char.ofNat 0x9762] cs).bind
    (fun rest => (greedyGapLit 10 [Char.ofNat 0x6388, Char.ofNat 0x6743]
        rest).map
      (fun rest' => ([], rest')))

/-- The tail `号[:：]?\s*[\w\-]{5,}` of the WeChat pattern. -/
def weixinTail (cs : List Char) : Option (List Char) :=
  (litMatch [Char.ofNat 0x53f7] cs).bind (fun rest =>
    let rest := match rest with
      | c :: r => if c == ':' || c.toNat == 0xff1a then r else rest
      | [] => rest
    let rest := rest.dropWhile isPySpace
    let run := rest.takeWhile (fun c => isWordChar c || c == '-')
    if 5 ≤ run.length then some (rest.drop run.length) else none)

/-- `微信.?号[:：]?\s*[\w\-]{5,}` (the optional `.?` is greedy). -/
def tryWeixin (cs : List Char) : Option (List Char × List Char) :=
  (litMatch [Char.ofNat 0x5fae, Char.ofNat 0x4fe1] cs).bind (fun rest =>
    let try1 := match rest with
      | c :: r => if notNl c then weixinTail r else none
      | [] => none
    match try1 with
    | some rest' => some ([], rest')
    | none => (weixinTail rest).map (fun rest' => ([], rest')))

/-- `公众号[:：].{5,}` (greedy: consumes to the end of the line). -/
def tryGzh (cs : List Char) : Option (List Char × List Char) :=
  (litMatch [Char.ofNat 0x516c, Char.ofNat 0x4f17, Char.ofNat 0x53f7]
      cs).bind (fun rest =>
    match rest with
    | c :: r =>
        if c == ':' || c.toNat == 0xff1a then
          let run := r.takeWhile notNl
          if 5 ≤ run.length then some ([], r.drop run.length) else none
        else none
    | [] => none)

/-- `招聘.{0,20}\d{3,}`: greedy bounded gap, then at least three
digits, the digit run taken maximally. -/
def tryZhaopin (cs : List Char) : Option (List Char × List Char) :=
  (litMatch [Char.ofNat 0x62db, Char.ofNat 0x8058] cs).bind (fun rest =>
    let limit := min 20 (rest.takeWhile notNl).length
    ((List.range (limit + 1)).reverse.firstM (fun g =>
      let digits := (rest.drop g).takeWhile isDigitCh
      if 3 ≤ digits.length then some ((rest.drop g).drop digits.length)
      else none)).map (fun rest' => ([], rest')))

/-- `电话[:：]?\d{7,}`. -/
def tryDianhua (cs : List Char) : Option (List Char × List Char) :=
  (litMatch [Char.ofNat 0x7535, Char.ofNat 0x8bdd] cs).bind (fun rest =>
    let rest := match rest with
      | c :: r => if c == ':' || c.toNat == 0xff1a then r else rest
      | [] => rest
    let digits := rest.takeWhile isDigitCh
    if 7 ≤ digits.length then some ([], rest.drop digits.length) else none)

/-- `地址[:：]?.{5,}路.{0,10}号`: the greedy `.{5,}` makes the engine
try the rightmost `路` (at gap ≥ 5) first, then the largest bounded
gap before `号`. -/
def tryDizhi (cs : List Char) : Option (List Char × List Char) :=
  (litMatch [Char.ofNat 0x5730, Char.ofNat 0x5740] cs).bind (fun rest =>
    let rest := match rest with
      | c :: r => if c == ':' || c.toNat == 0xff1a then r else rest
      | [] => rest
    let region := rest.takeWhile notNl
    ((List.range region.length).reverse.firstM (fun i =>
      if 5 ≤ i && region.getD i ' ' == Char.ofNat 0x8def then
        let afterLu := rest.drop (i + 1)
        let limit := min 10 (afterLu.takeWhile notNl).length
        (List.range (limit + 1)).reverse.firstM (fun g =>
          litMatch [Char.ofNat 0x53f7] (afterLu.drop g))
      else none)).map (fun rest' => ([], rest')))

/-- `第\s*\d+\s*页\s*(?:/\s*共\s*\d+\s*页)?`. -/
def tryPageBlk (cs : List Char) : Option (List Char × List Char) :=
  (litMatch [Char.ofNat 0x7b2c] cs).bind (fun rest =>
    let rest := rest.dropWhile isPySpace
    let digits := rest.takeWhile isDigitCh
    if digits == [] then none
    else
      (litMatch [Char.ofNat 0x9875]
          ((rest.drop digits.length).dropWhile isPySpace)).bind (fun rest2 =>
        let rest3 := rest2.dropWhile isPySpace
        let grp :=
          (litMatch ['/'] rest3).bind (fun r =>
            (litMatch [Char.ofNat 0x5171] (r.dropWhile isPySpace)).bind
              (fun r2 =>
                let r2w := r2.dropWhile isPySpace
                let d2 := r2w.takeWhile isDigitCh
                if d2 == [] then none
                else litMatch [Char.ofNat 0x9875]
                  ((r2w.drop d2.length).dropWhile isPySpace)))
        match grp with
        | some rest4 => some ([], rest4)
        | none => some ([], rest3)))

/-- `机密.{0,10}保密级别`. -/
def tryJimi (cs : List Char) : Option (List Char × List Char) :=
  (litMatch [Char.ofNat 0x673a, Char.ofNat 0x5bc6] cs).bind (fun rest =>
    (greedyGapLit 10 [Char.ofNat 0x4fdd, Char.ofNat 0x5bc6,
        Char.ofNat 0x7ea7, Char.ofNat 0x522b] rest).map
      (fun rest' => ([], rest')))

/-- `内部资料.{0,10}仅限内部`. -/
def tryNeibu (cs : List Char) : Option (List Char × List Char) :=
  (litMatch [Char.ofNat 0x5185, Char.ofNat 0x90e8, Char.ofNat 0x8d44,
      Char.ofNat 0x6599] cs).bind (fun rest =>
    (greedyGapLit 10 [Char.ofNat 0x4ec5, Char.ofNat 0x9650,
        Char.ofNat 0x5185, Char.ofNat 0x90e8] rest).map
      (fun rest' => ([], rest')))

/-- A case-insensitive literal followed by `\s*$` (no MULTILINE: the
remainder must be all whitespace, and the match consumes it). -/
def tryEndLit (lit : List Char) (cs : List Char) :
    Option (List Char × List Char) :=
  (litMatchCI lit cs).bind (fun rest =>
    if rest.all isPySpace then some ([], []) else none)

/-- `Confidential\s*$` (re.I). -/
def tryConfidentialEnd (cs : List Char) : Option (List Char × List Char) :=
  tryEndLit "confidential".data cs

/-- `Internal\s+Use\s+Only\s*$` (re.I). -/
def tryInternalEnd (cs : List Char) : Option (List Char × List Char) :=
  (litMatchCI "internal".data cs).bind (fun r1 =>
    let ws1 := r1.takeWhile isPySpace
    if ws1 == [] then none
    else (litMatchCI "use".data (r1.drop ws1.length)).bind (fun r2 =>
      let ws2 := r2.takeWhile isPySpace
      if ws2 == [] then none
      else (litMatchCI "only".data (r2.drop ws2.length)).bind (fun r3 =>
        if r3.all isPySpace then some ([], []) else none)))

/-- `Restricted\s*$` (re.I). -/
def tryRestrictedEnd (cs : List Char) : Option (List Char × List Char) :=
  tryEndLit "restricted".data cs

/-- `1[3-9]\d{9}`, masked to the first three digits, four asterisks,
and the last four digits. -/
def tryPhone (cs : List Char) : Option (List Char × List Char) :=
  match cs with
  | '1' :: c2 :: rest =>
      if 0x33 ≤ c2.toNat && c2.toNat ≤ 0x39 &&
          (rest.take 9).length == 9 && (rest.take 9).all isDigitCh then
        let m := '1' :: c2 :: rest.take 9
        some (m.take 3 ++ ['*', '*', '*', '*'] ++ m.drop 7, rest.drop 9)
      else none
  | _ => none

/-- `[1-6]\d{5}(18|19|20)\d{2}\d{2}(0[1-9]|1[0-2])(0[1-9]|[12]\d|3[01])\d{3}[\dXx]`
(a 20-character match, transcribed verbatim), masked to the first six
characters, eight asterisks, and the last four. -/
def tryIdMask (cs : List Char) : Option (List Char × List Char) :=
  match cs with
  | c1 :: rest =>
      if !(0x31 ≤ c1.toNat && c1.toNat ≤ 0x36) then none
      else if !((rest.take 5).length == 5 && (rest.take 5).all isDigitCh) then
        none
      else
        let r1 := rest.drop 5
        let century := match r1 with
          | a :: b :: _ =>
              (a == '1' && (b == '8' || b == '9')) || (a == '2' && b == '0')
          | _ => false
        if !century then none
        else if !((r1.drop 2).take 4).all isDigitCh ||
            ((r1.drop 2).take 4).length != 4 then none
        else
          let r2 := r1.drop 6
          let month := match r2 with
            | a :: b :: _ =>
                (a == '0' && 0x31 ≤ b.toNat && b.toNat ≤ 0x39) ||
                (a == '1' && 0x30 ≤ b.toNat && b.toNat ≤ 0x32)
            | _ => false
          if !month then none
          else
            let r3 := r2.drop 2
            let day := match r3 with
              | a :: b :: _ =>
                  (a == '0' && 0x31 ≤ b.toNat && b.toNat ≤ 0x39) ||
                  ((a == '1' || a == '2') && isDigitCh b) ||
                  (a == '3' && (b == '0' || b == '1'))
              | _ => false
            if !day then none
            else
              let r4 := r3.drop 2
              if !((r4.take 3).length == 3 && (r4.take 3).all isDigitCh) then
                none
              else
                let last := match r4.drop 3 with
                  | c :: _ => isDigitCh c || c == 'X' || c == 'x'
                  | [] => false
                if !last then none
                else
                  let m := cs.take 20
                  some (m.take 6 ++ List.replicate 8 '*' ++ m.drop 16,
                        cs.drop 20)
  | [] => none

/-- `_l5_compliance_and_pii`: the fourteen blacklist deletions in
order, then the mobile-number mask, then the id-number mask
(`ENABLE_COMPLIANCE_MASK` is true). -/
def l5CompliancePii (cs : List Char) : List Char :=
  let t := [tryCopyright, tryNoReprint, tryNoWritten, tryWeixin, tryGzh,
    tryZhaopin, tryDianhua, tryDizhi, tryPageBlk, tryJimi, tryNeibu,
    tryConfidentialEnd, tryInternalEnd,
    tryRestrictedEnd].foldl (fun t m => runSub m t) cs
  runSub tryIdMask (runSub tryPhone t)

/-- Matcher for the final CJK-gap collapse
`([一-龥])[\s ​　]*([一-龥])` with replacement `"\1\2"`
(the whitespace run may be empty; both CJK characters are consumed). -/
def tryCjkGap : List Char → Option (List Char × List Char)
  | c1 :: rest =>
      if isCJK c1 then
        match rest.drop (rest.takeWhile isCollapseWs).length with
        | c2 :: rest' => if isCJK c2 then some ([c1, c2], rest') else none
        | [] => none
      else none
  | [] => none

/-- Matcher for `[ \t]+` with replacement `" "`. -/
def trySpaceTab (cs : List Char) : Option (List Char × List Char) :=
  let run := cs.takeWhile (fun c => c == ' ' || c == '\t')
  if run == [] then none else some ([' '], cs.drop run.length)

/-- Matcher for `" *\n\n *"` with replacement `"\n\n"`. -/
def tryTrimPara (cs : List Char) : Option (List Char × List Char) :=
  let sp := cs.takeWhile (· == ' ')
  match cs.drop sp.length with
  | '\n' :: '\n' :: r =>
      some (['\n', '\n'], r.drop (r.takeWhile (· == ' ')).length)
  | _ => none

/-- Matcher for `\n{3,}` with replacement `"\n\n"`. -/
def tryNl3 (cs : List Char) : Option (List Char × List Char) :=
  let run := cs.takeWhile (· == '\n')
  if 3 ≤ run.length then some (['\n', '\n'], cs.drop run.length) else none

/-- The text transformation of `CleanProcessor.process` on an Item
whose `raw_text` is present (truthy), for an Item whose `source` field
is not "tika" (so the HTML branch is skipped).  The L1 encoding repair
(`ftfy.fix_text`, NFC) and the NFKC normalization are modelled as the
identity: the development instantiates this function only at strings
of ASCII and CJK-ideograph characters, on which both are the identity.
Semantic deduplication is disabled: the module-level model load fails
(the configured local path does not exist on the deployment host), so
`ENABLE_SEMANTIC_DEDUP` flips to False at import time and
`_semantic_dedup` returns its input; the reinsertion step then appends
the blank paragraphs after the unchanged non-empty ones, which the
following join filters out again. -/
def cleanText (s : String) : String :=
  let t := s.data
  let t := t.filter (fun c => c != '\x00')
  let t := replaceCRLF t
  let t := l2LayoutNoiseRemoval t
  let processed := (splitOnChar '\n' t).flatMap processLineOut
  let paragraphs := paraMergeGo processed [] []
  let paragraphs := paragraphs.filter (fun p => pyStripL p != [] || p == [])
  let nonEmpty := paragraphs.filter (fun p => pyStripL p != [])
  let paragraphs :=
    if nonEmpty == [] then paragraphs
    else nonEmpty ++
      List.replicate (paragraphs.length - nonEmpty.length) []
  let t := joinWithSep ['\n', '\n']
    ((paragraphs.filter (fun p => pyStripL p != [])).map pyStripL)
  let t := pyStripL t
  let t := l5CompliancePii t
  let t := runSub tryCjkGap t
  let t := runSub trySpaceTab t
  let t := runSub tryTrimPara t
  let t := runSub tryNl3 t
  let t := pyStripL t
  if 30 < t.length then String.mk t else ""

-- ===================================================================
-- Shared lemmas
-- ===================================================================

/-- A value returned by `orChain` is a truthy (non-empty) string. -/
theorem orChain_some_ne_empty :
    ∀ (l : List (Option String)) (p : String), orChain l = some p → p ≠ "" := by
  intro l
  induction l with
  | nil => intro p h; simp [orChain] at h
  | cons o rest ih =>
      intro p h
      cases hst : strTruthy o with
      | true =>
          simp only [orChain, hst, if_true] at h
          subst h
          simp [strTruthy] at hst
          exact hst
      | false =>
          simp only [orChain, hst, if_false] at h
          exact ih p h

/-- The clean transformation maps the empty string to itself. -/
theorem cleanText_empty : cleanText "" = "" := by decide

-- ===================================================================
-- Claim theorems
-- ===================================================================

/-- Claim C1.  The claim states that an Item with no caller-supplied id
gets `doc_id = source_system + "_" + sha256(clean_filename || 0x00 0x00
|| content)[:16]` with `source_system` defaulting to the tag
"rag_upload".  The hash structure and the explicit-source_system case
are exactly as claimed, but the code has no "rag_upload" default: when
`user_metadata` lacks `source_system`, `IdProcessor.process` passes
`None` into the f-string and the doc_id is prefixed "None_" — contrary
to the function's own docstring, which documents the default
'rag_upload'.  This theorem evaluates the embedded code at the failing
input (and, for contrast, with an explicit source system). -/
theorem c1_default_source_system_prefix :
    idProcess { file_name := some "report.pdf",
                binary := some (utf8Encode "hello") } =
      "None_4bb4a5108dad0c35" ∧
    idProcess { file_name := some "report.pdf",
                binary := some (utf8Encode "hello"),
                user_metadata := [("source_system", "corp")] } =
      "corp_4bb4a5108dad0c35" ∧
    (sha256Hex (utf8Encode "report.pdf" ++ [0, 0] ++
        utf8Encode "hello")).take 16 = "4bb4a5108dad0c35" := by
  exact ⟨by decide, by decide, by decide⟩

/-- Claim C2.  For `start_url = "https://a.example.com/docs/"`,
`restrict_to_path = true`, `allow_subdomains = false`, the claim
requires the scope predicate to reject the blog URL and the foreign
host (which it does) and to accept `https://a.example.com/docs/sub/x`.
The code rejects it as well: `__init__` first strips the trailing
slash (making the parsed path "/docs"), then computes
`start_path_prefix = os.path.dirname("/docs") + "/" = "//"`, which no
path starts with — contradicting the constructor's own doc comment
("only crawl URLs whose path starts with start_url.path").  This
theorem evaluates the embedded code at the three URLs and exhibits the
computed prefix. -/
theorem c2_scope_rejects_in_scope_url :
    isUrlInScope (mkCrawlerScope "https://a.example.com/docs/" false true)
      "https://a.example.com/blog/x" = false ∧
    isUrlInScope (mkCrawlerScope "https://a.example.com/docs/" false true)
      "https://b.example.com/docs/x" = false ∧
    isUrlInScope (mkCrawlerScope "https://a.example.com/docs/" false true)
      "https://a.example.com/docs/sub/x" = false ∧
    (mkCrawlerScope "https://a.example.com/docs/" false true).startPathPfx =
      "//" := by
  exact ⟨by decide, by decide, by decide, by decide⟩

/-- Claim C6, counterexample.  The claim says a caller-supplied
`business_id` inside `user_metadata` is used verbatim as the doc_id.
The code only consults `user_metadata["doc_id"]` (the other id keys are
read from the Item root), so an Item carrying only
`user_metadata = {"business_id": "BIZ-7"}` still gets a hashed doc_id,
not "BIZ-7". -/
theorem c6_um_business_id_ignored :
    idProcess { file_name := some "f.txt",
                binary := some (utf8Encode "B"),
                user_metadata := [("business_id", "BIZ-7")] } =
      "None_7bf264ca6116a02e" ∧
    "None_7bf264ca6116a02e" ≠ "BIZ-7" := by
  exact ⟨by decide, by decide⟩

/-- Claim C6, amended.  A caller-supplied id taken from
`user_metadata["doc_id"]` or from the Item's `doc_id`, `business_id`,
`archive_no`, `id` fields (the first truthy one, in that order) is used
verbatim after stripping, with no hash and no source-system prefix,
provided its stripped form is non-empty. -/
theorem c6_preferred_id_verbatim :
    ∀ (d : IdItem) (p : String),
      orChain [pyGet d.user_metadata "doc_id", d.doc_id, d.business_id,
        d.archive_no, d.id] = some p →
      pyStrip p ≠ "" →
      idProcess d = pyStrip p := by
  intro d p h hs
  have hp : p ≠ "" := orChain_some_ne_empty _ p h
  have hb : (p != "" && pyStrip p != "") = true := by
    simp [hp, hs]
  simp only [idProcess, generateStableDocId, h, hb, if_true]

/-- Claim C6, witness: `user_metadata.doc_id = "EXT-42"` yields doc_id
"EXT-42". -/
theorem c6_preferred_id_verbatim_witness :
    idProcess { file_name := some "report.pdf",
                binary := some (utf8Encode "B"),
                user_metadata := [("doc_id", "EXT-42")] } = "EXT-42" := by
  have h := c6_preferred_id_verbatim
    { file_name := some "report.pdf", binary := some (utf8Encode "B"),
      user_metadata := [("doc_id", "EXT-42")] } "EXT-42" (by decide)
    (by decide)
  exact h.trans (by decide)

/-- Claim C7, counterexample.  The clean transformation is not
idempotent: in `"1 2- -x"` the first pass's `\d+\s*[—–\-─━—]+` rule
removes only `"2-"` and the line join then produces `"... 1 -x ..."`,
in which a second pass newly matches `"1 -"` and removes it; the two
passes disagree. -/
theorem c7_clean_not_idempotent :
    cleanText
        "hello world this is a long filler sentence\n1 2- -x and more text to pass the gate" =
      "hello world this is a long filler sentence 1 -x and more text to pass the gate" ∧
    cleanText
        "hello world this is a long filler sentence 1 -x and more text to pass the gate" =
      "hello world this is a long filler sentence x and more text to pass the gate" ∧
    cleanText (cleanText
        "hello world this is a long filler sentence\n1 2- -x and more text to pass the gate") ≠
      cleanText
        "hello world this is a long filler sentence\n1 2- -x and more text to pass the gate" := by
  exact ⟨by decide, by decide, by decide⟩

/-- Claim C7, amended.  Idempotence holds on the inputs whose cleaned
form is empty (in particular every input whose cleaned text fails the
30-character length gate): the empty string is a fixed point of the
transformation.  Full idempotence fails, see the counterexample. -/
theorem c7_clean_idempotent_on_empty :
    ∀ s : String, cleanText s = "" →
      cleanText (cleanText s) = cleanText s := by
  intro s h
  rw [h, cleanText_empty]

/-- Claim C7, witness: a short input is gated to "" and re-cleaning is
stable there. -/
theorem c7_clean_idempotent_on_empty_witness :
    cleanText (cleanText "a") = cleanText "a" :=
  c7_clean_idempotent_on_empty "a" (by decide)

/-- Claim C9, counterexample.  The claim says every string that is not
valid base64 makes `Base64Source.read` fail.  The source calls
`base64.b64decode` without `validate=True`, which silently discards
characters outside the alphabet: `"$$$$"` is not valid base64 (strict
decoding rejects it) yet `read` succeeds and returns empty binary
content. -/
theorem c9_invalid_base64_accepted :
    isValidBase64 "$$$$" = false ∧
    base64SourceRead "f" "$$$$" = .ok ⟨"f", [], none⟩ := by
  exact ⟨by decide, rfl⟩

/-- Claim C9, amended.  `Base64Source.read` fails (with a RuntimeError
wrapping the decode error — surfaced by the `/ingest` route as a failed
result entry, not as HTTP 400) exactly when non-strict
`base64.b64decode` raises; on every string the non-strict decoder
accepts — which includes strings that are not valid base64, their
foreign characters being discarded — it returns the single Item
`{file_name, binary: decoded bytes}`, identical to what `FileSource`
yields for the decoded bytes. -/
theorem c9_read_decodes_like_file_source :
    (∀ (fn s : String) (bytes : List Nat),
      pyB64Decode false s = .ok bytes →
      base64SourceRead fn s = .ok (fileSourceRead fn bytes none)) ∧
    (∀ (fn s e : String),
      pyB64Decode false s = .error e →
      base64SourceRead fn s = .error ("Invalid base64 content: " ++ e)) := by
  constructor
  · intro fn s bytes h
    unfold base64SourceRead
    rw [h]
    rfl
  · intro fn s e h
    unfold base64SourceRead
    rw [h]

/-- Claim C9, witness: "aGVsbG8=" decodes to the bytes of "hello" and
the Item equals the File source's; the one-character string "a" is
rejected by the decoder and `read` fails. -/
theorem c9_read_decodes_like_file_source_witness :
    base64SourceRead "hello.bin" "aGVsbG8=" =
      .ok (fileSourceRead "hello.bin" (utf8Encode "hello") none) ∧
    base64SourceRead "f" "a" =
      .error ("Invalid base64 content: " ++
        "Invalid base64-encoded string: number of data characters cannot be 1 more than a multiple of 4") := by
  exact ⟨c9_read_decodes_like_file_source.1 "hello.bin" "aGVsbG8="
      (utf8Encode "hello") pyB64Decode_hello,
    c9_read_decodes_like_file_source.2 "f" "a" _ rfl⟩

/-- Claim C10.  When `binary`, `raw_text` and `uri` are all absent or
empty and no caller-supplied id is present, `IdProcessor.process` does
not raise: it hashes the sentinel string "no_content", so the doc_id is
a function of the cleaned file name and `user_metadata.source_system`
alone — two such Items agreeing on both get the same doc_id. -/
theorem c10_no_content_sentinel :
    (∀ d : IdItem,
      bytesTruthy d.binary = false → strTruthy d.raw_text = false →
      strTruthy d.uri = false →
      orChain [pyGet d.user_metadata "doc_id", d.doc_id, d.business_id,
        d.archive_no, d.id] = none →
      idProcess d = pyStr (pyGet d.user_metadata "source_system") ++ "_" ++
        (sha256Hex (utf8Encode
            (cleanFilenameKeepChinese (d.file_name.getD "unknown_source")) ++
          [0, 0] ++ utf8Encode "no_content")).take 16) ∧
    (∀ d₁ d₂ : IdItem,
      bytesTruthy d₁.binary = false → strTruthy d₁.raw_text = false →
      strTruthy d₁.uri = false →
      bytesTruthy d₂.binary = false → strTruthy d₂.raw_text = false →
      strTruthy d₂.uri = false →
      orChain [pyGet d₁.user_metadata "doc_id", d₁.doc_id, d₁.business_id,
        d₁.archive_no, d₁.id] = none →
      orChain [pyGet d₂.user_metadata "doc_id", d₂.doc_id, d₂.business_id,
        d₂.archive_no, d₂.id] = none →
      d₁.file_name = d₂.file_name →
      pyGet d₁.user_metadata "source_system" =
        pyGet d₂.user_metadata "source_system" →
      idProcess d₁ = idProcess d₂) := by
  have base : ∀ d : IdItem,
      bytesTruthy d.binary = false → strTruthy d.raw_text = false →
      strTruthy d.uri = false →
      orChain [pyGet d.user_metadata "doc_id", d.doc_id, d.business_id,
        d.archive_no, d.id] = none →
      idProcess d = pyStr (pyGet d.user_metadata "source_system") ++ "_" ++
        (sha256Hex (utf8Encode
            (cleanFilenameKeepChinese (d.file_name.getD "unknown_source")) ++
          [0, 0] ++ utf8Encode "no_content")).take 16 := by
    intro d h1 h2 h3 h4
    unfold idProcess generateStableDocId
    rw [h1, h2, h3, h4]
    simp [HashContent.toBytes]
  refine ⟨base, ?_⟩
  intro d₁ d₂ h1 h2 h3 h4 h5 h6 h7 h8 hf hs
  rw [base d₁ h1 h2 h3 h7, base d₂ h4 h5 h6 h8, hf, hs]

/-- Claim C10, witness: two concrete content-free Items with the same
file name and source system (one of them carrying an extra metadata key
and an empty `raw_text`) receive the same doc_id. -/
theorem c10_no_content_sentinel_witness :
    idProcess { file_name := some "f.txt",
                user_metadata := [("source_system", "s1")] } =
      idProcess { file_name := some "f.txt",
                  raw_text := some "",
                  user_metadata := [("source_system", "s1"), ("x", "y")] } :=
  c10_no_content_sentinel.2
    { file_name := some "f.txt", user_metadata := [("source_system", "s1")] }
    { file_name := some "f.txt", raw_text := some "",
      user_metadata := [("source_system", "s1"), ("x", "y")] }
    rfl rfl rfl rfl rfl rfl rfl rfl rfl rfl

-- ===================================================================
-- Lemmas on the orchestrator's stable sort and processor loop
-- ===================================================================

/-- Members of an insertion are the inserted element or old members. -/
theorem mem_insertProc {p q : Processor} :
    ∀ {l : List Processor}, q ∈ insertProc p l → q = p ∨ q ∈ l := by
  intro l
  induction l with
  | nil => intro h; simpa [insertProc] using h
  | cons r rs ih =>
      intro h
      rw [insertProc] at h
      by_cases hlt : effOrder r < effOrder p
      · rw [if_pos hlt] at h
        rcases List.mem_cons.mp h with h1 | h2
        · exact Or.inr (h1 ▸ List.mem_cons_self r rs)
        · rcases ih h2 with h3 | h4
          · exact Or.inl h3
          · exact Or.inr (List.mem_cons_of_mem r h4)
      · rw [if_neg hlt] at h
        rcases List.mem_cons.mp h with h1 | h2
        · exact Or.inl h1
        · exact Or.inr h2

/-- Insertion into an order-sorted list keeps it sorted. -/
theorem pairwise_insertProc {p : Processor} :
    ∀ {l : List Processor},
      l.Pairwise (fun a b => effOrder a ≤ effOrder b) →
      (insertProc p l).Pairwise (fun a b => effOrder a ≤ effOrder b) := by
  intro l
  induction l with
  | nil => intro _; simp [insertProc]
  | cons q qs ih =>
      intro h
      rcases List.pairwise_cons.mp h with ⟨hq, hqs⟩
      rw [insertProc]
      by_cases hlt : effOrder q < effOrder p
      · rw [if_pos hlt]
        refine List.pairwise_cons.mpr ⟨?_, ih hqs⟩
        intro b hb
        rcases mem_insertProc hb with rfl | hbl
        · exact Nat.le_of_lt hlt
        · exact hq b hbl
      · rw [if_neg hlt]
        refine List.pairwise_cons.mpr ⟨?_, h⟩
        intro b hb
        rcases List.mem_cons.mp hb with rfl | hbq
        · exact Nat.le_of_not_lt hlt
        · exact Nat.le_trans (Nat.le_of_not_lt hlt) (hq b hbq)

/-- The order-`k` elements of an insertion: the inserted element goes
first exactly when its key is `k`. -/
theorem filter_insertProc (p : Processor) (k : Nat) :
    ∀ (l : List Processor),
      (insertProc p l).filter (fun q => effOrder q == k) =
        if effOrder p == k then
          p :: l.filter (fun q => effOrder q == k)
        else l.filter (fun q => effOrder q == k) := by
  intro l
  induction l with
  | nil => cases hpk : effOrder p == k <;> simp [insertProc, List.filter, hpk]
  | cons q qs ih =>
      rw [insertProc]
      by_cases hlt : effOrder q < effOrder p
      · rw [if_pos hlt]
        by_cases hpk : (effOrder p == k) = true
        · have hqk : (effOrder q == k) = false := by
            have hp : effOrder p = k := by simpa using hpk
            simp only [beq_eq_false_iff_ne, ne_eq]
            omega
          simp [List.filter_cons, hqk, ih, hpk]
        · simp only [List.filter_cons, ih, hpk, if_false]
          simp [hpk]
      · rw [if_neg hlt]
        by_cases hpk : (effOrder p == k) = true
        · simp [List.filter_cons, hpk]
        · simp [List.filter_cons, hpk]

/-- The stable sort is sorted ascending by `effOrder`. -/
theorem sortProcessors_sorted (l : List Processor) :
    (sortProcessors l).Pairwise (fun a b => effOrder a ≤ effOrder b) := by
  induction l with
  | nil => simp [sortProcessors]
  | cons p ps ih => exact pairwise_insertProc ih

/-- Stability: for every order value the sort preserves the original
relative order of the processors carrying it. -/
theorem sortProcessors_stable (l : List Processor) (k : Nat) :
    (sortProcessors l).filter (fun q => effOrder q == k) =
      l.filter (fun q => effOrder q == k) := by
  induction l with
  | nil => rfl
  | cons p ps ih =>
      rw [sortProcessors, filter_insertProc, ih]
      by_cases hpk : (effOrder p == k) = true
      · simp [List.filter_cons, hpk]
      · simp [List.filter_cons, hpk]

/-- Splitting the processor loop at a successful prefix. -/
theorem foldProcs_append_ok :
    ∀ (l₁ : List Processor) (l₂ : List Processor) (d d' : PDict),
      foldProcs l₁ d = .ok d' →
      foldProcs (l₁ ++ l₂) d = foldProcs l₂ d' := by
  intro l₁
  induction l₁ with
  | nil =>
      intro l₂ d d' h
      cases h
      rfl
  | cons p ps ih =>
      intro l₂ d d' h
      rw [List.cons_append]
      rw [foldProcs] at h ⊢
      cases hp : p.process d with
      | dict u => rw [hp] at h; exact ih l₂ _ d' h
      | nonDict b =>
          rw [hp] at h
          cases b with
          | true => exact Except.noConfusion h
          | false => exact ih l₂ _ d' h
      | raises m => rw [hp] at h; exact Except.noConfusion h

-- ===================================================================
-- Lemmas on the email source model
-- ===================================================================

/-- Membership through the ascending insertion. -/
theorem mem_insertNat {a n : Nat} :
    ∀ {l : List Nat}, a ∈ insertNat n l ↔ a = n ∨ a ∈ l := by
  intro l
  induction l with
  | nil => simp [insertNat]
  | cons m ms ih =>
      rw [insertNat]
      by_cases hle : m ≤ n
      · rw [if_pos hle]
        simp only [List.mem_cons, ih]
        tauto
      · rw [if_neg hle]
        simp only [List.mem_cons]

/-- Membership through the insertion-sort fold. -/
theorem mem_foldl_insertNat (a : Nat) :
    ∀ (l init : List Nat),
      a ∈ l.foldl (fun acc u => insertNat u acc) init ↔
        a ∈ init ∨ a ∈ l := by
  intro l
  induction l with
  | nil => simp
  | cons u us ih =>
      intro init
      rw [List.foldl_cons, ih]
      simp only [mem_insertNat, List.mem_cons]
      tauto

/-- Membership through the deduplication fold. -/
theorem mem_foldl_dedup (a : Nat) :
    ∀ (l init : List Nat),
      a ∈ l.foldl
          (fun acc u => if acc.contains u then acc else acc ++ [u]) init ↔
        a ∈ init ∨ a ∈ l := by
  intro l
  induction l with
  | nil => simp
  | cons u us ih =>
      intro init
      rw [List.foldl_cons, ih]
      by_cases hc : (init.contains u) = true
      · have hu : u ∈ init := List.elem_iff.mp hc
        rw [if_pos hc]
        simp only [List.mem_cons]
        constructor
        · tauto
        · rintro (h | rfl | h) <;> tauto
      · rw [if_neg hc]
        simp only [List.mem_append, List.mem_singleton, List.mem_cons]
        tauto

/-- The UID preprocessing preserves the set of UIDs. -/
theorem mem_sortedUniqueUids {a : Nat} {l : List Nat} :
    a ∈ sortedUniqueUids l ↔ a ∈ l := by
  unfold sortedUniqueUids dedupNat
  rw [mem_foldl_insertNat, mem_foldl_dedup]
  simp

/-- `l[-n:]` is the whole list when it has at most `n` elements. -/
theorem pySliceLast_of_le {n : Nat} {l : List Nat} (h : l.length ≤ n) :
    pySliceLast n l = l := by
  unfold pySliceLast
  by_cases h0 : n = 0
  · simp [h0]
  · have : (n == 0) = false := by simp [h0]
    rw [this]
    simp only [Bool.false_eq_true, if_false]
    rw [Nat.sub_eq_zero_of_le h, List.drop_zero]

/-- The fetch fold never unmarks a seen UID. -/
theorem emailFetchStep_seen_mono {mb : List EmailMsg} {f : Nat → Bool}
    {a u : Nat} {st : List ImapItem × List Nat} (h : a ∈ st.2) :
    a ∈ (emailFetchStep mb f st u).2 := by
  unfold emailFetchStep
  by_cases hf : f u = true
  · rw [if_pos hf]
    cases hm : mb.find? (fun m => m.uid == u) with
    | some m => simpa using Or.inl h
    | none => exact h
  · rw [if_neg hf]
    exact h

/-- Fold version of the previous lemma. -/
theorem foldl_seen_mono {mb : List EmailMsg} {f : Nat → Bool} {a : Nat} :
    ∀ (l : List Nat) (st : List ImapItem × List Nat), a ∈ st.2 →
      a ∈ (l.foldl (emailFetchStep mb f) st).2 := by
  intro l
  induction l with
  | nil => intro st h; exact h
  | cons u us ih =>
      intro st h
      exact ih _ (emailFetchStep_seen_mono h)

/-- A dispatched UID whose fetch succeeds and which belongs to the
mailbox is marked seen by the fold. -/
theorem foldl_seen_adds {mb : List EmailMsg} {f : Nat → Bool} :
    ∀ (l : List Nat) (st : List ImapItem × List Nat) (u : Nat),
      u ∈ l → f u = true →
      (mb.find? (fun m => m.uid == u)).isSome = true →
      u ∈ (l.foldl (emailFetchStep mb f) st).2 := by
  intro l
  induction l with
  | nil => intro st u h; cases h
  | cons v vs ih =>
      intro st u hu hf hfind
      rcases List.mem_cons.mp hu with rfl | hvs
      · rw [List.foldl_cons]
        apply foldl_seen_mono
        unfold emailFetchStep
        rw [if_pos hf]
        cases hm : mb.find? (fun m => m.uid == u) with
        | some m => simp
        | none => rw [hm] at hfind; cases hfind
      · rw [List.foldl_cons]
        exact ih _ u hvs hf hfind

-- ===================================================================
-- Claim theorems (continued)
-- ===================================================================

/-- Claim C3, counterexample.  The claim says a processor returning a
non-mapping value aborts the Item with a failed summary entry.  The
orchestrator first coerces the result with `or {}`: a falsy non-mapping
return (Python `None`, `""`, `0`, `[]`, `False`) becomes the empty
update and the Item finishes with status "ok". -/
theorem c3_falsy_nonmapping_is_ok :
    runnerRun [⟨"NoneProc", some 5, fun _ => .nonDict false⟩] []
        [[("file_name", "a.txt")]] =
      [{ file_name := some "a.txt", doc_id := none, status := "ok",
         source := none, error := none }] := by
  rfl

/-- Claim C3, amended.  Processors run in ascending declared `order`
(default 100), ties keeping registration order; a processor returning a
**truthy** non-mapping (or raising) aborts its Item, whose run summary
entry then has status "failed" (falsy non-mapping returns are coerced
to the empty update and the pipeline continues); and in a multi-Item
run each entry depends only on its own Item, so one Item's failure
cannot change a sibling's status. -/
theorem c3_order_abort_isolation :
    (∀ procs : List Processor,
      (sortProcessors procs).Pairwise (fun a b => effOrder a ≤ effOrder b)) ∧
    (∀ (procs : List Processor) (k : Nat),
      (sortProcessors procs).filter (fun q => effOrder q == k) =
        procs.filter (fun q => effOrder q == k)) ∧
    (∀ (pre post : List Processor) (p : Processor) (sinks : List Sink)
        (d d' : PDict), foldProcs pre d = .ok d' →
      p.process d' = .nonDict true →
      runSingle (pre ++ p :: post) sinks d =
        .error ("Pipeline aborted due to failure in processor " ++
          p.name)) ∧
    (∀ (pre post : List Processor) (p : Processor) (sinks : List Sink)
        (d d' : PDict), foldProcs pre d = .ok d' →
      p.process d' = .nonDict false →
      runSingle (pre ++ p :: post) sinks d =
        runSingle (pre ++ post) sinks d) ∧
    (∀ (procs : List Processor) (sinks : List Sink) (items : List PDict)
        (i : Nat) (d : PDict) (e : String), items[i]? = some d →
      runSingle (sortProcessors procs) sinks d = .error e →
      (runnerRun procs sinks items)[i]? =
        some { file_name := pdGet d "file_name", status := "failed",
               error := some e }) ∧
    (∀ (procs : List Processor) (sinks : List Sink)
        (items₁ items₂ : List PDict) (i : Nat),
      items₁[i]? = items₂[i]? →
      (runnerRun procs sinks items₁)[i]? =
        (runnerRun procs sinks items₂)[i]?) := by
  refine ⟨sortProcessors_sorted, sortProcessors_stable, ?_, ?_, ?_, ?_⟩
  · intro pre post p sinks d d' hpre hp
    unfold runSingle
    rw [foldProcs_append_ok pre (p :: post) d d' hpre]
    rw [foldProcs, hp]
  · intro pre post p sinks d d' hpre hp
    unfold runSingle
    rw [foldProcs_append_ok pre (p :: post) d d' hpre,
      foldProcs_append_ok pre post d d' hpre]
    rw [foldProcs, hp]
    rfl
  · intro procs sinks items i d e hi hrun
    unfold runnerRun
    rw [List.getElem?_map, hi]
    simp [hrun]
  · intro procs sinks items₁ items₂ i h
    unfold runnerRun
    rw [List.getElem?_map, List.getElem?_map, h]

/-- Claim C3, witness: concrete instances of the abort, the falsy
continuation, the failed summary entry, and sibling independence. -/
theorem c3_order_abort_isolation_witness :
    runSingle ([] ++ (⟨"BadProc", some 7, fun _ => .nonDict true⟩ : Processor)
        :: []) [] [("file_name", "a.txt")] =
      .error "Pipeline aborted due to failure in processor BadProc" ∧
    runSingle ([] ++ (⟨"NoneProc", some 7, fun _ => .nonDict false⟩ :
        Processor) :: []) [] [("file_name", "a.txt")] =
      runSingle ([] ++ []) [] [("file_name", "a.txt")] ∧
    (runnerRun [⟨"BadProc", some 7, fun _ => .nonDict true⟩] []
        [[("file_name", "a.txt")]])[0]? =
      some { file_name := some "a.txt", status := "failed",
             error := some "Pipeline aborted due to failure in processor BadProc" } ∧
    (runnerRun [] [] [[("file_name", "a.txt")], [("file_name", "b.txt")]])[0]? =
      (runnerRun [] [] [[("file_name", "a.txt")], [("sib", "changed")]])[0]? := by
  refine ⟨?_, ?_, ?_, ?_⟩
  · exact c3_order_abort_isolation.2.2.1 [] [] _ [] _ _ rfl rfl
  · exact c3_order_abort_isolation.2.2.2.1 [] [] _ [] _ _ rfl rfl
  · exact c3_order_abort_isolation.2.2.2.2.1
      [⟨"BadProc", some 7, fun _ => .nonDict true⟩] []
      [[("file_name", "a.txt")]] 0 [("file_name", "a.txt")]
      "Pipeline aborted due to failure in processor BadProc" rfl rfl
  · exact c3_order_abort_isolation.2.2.2.2.2 [] [] _ _ 0 rfl

/-- Claim C4.  After the Embed processor, the embeddings are aligned
one-to-one with the chunks (`len(embeddings) == len(chunks)` and
`embeddings[i].text == chunks[i]`), or the embeddings are the empty
list when no embedder client is configured. -/
theorem c4_embed_alignment :
    ∀ (client : Option (String → List Int)) (chunks : List String),
      ((embedProcess client chunks).length = chunks.length ∧
        ∀ i : Nat, ((embedProcess client chunks)[i]?).map Embedding.text =
          chunks[i]?) ∨
      (client = none ∧ embedProcess client chunks = []) := by
  intro client chunks
  cases client with
  | none => exact Or.inr ⟨rfl, rfl⟩
  | some emb =>
      left
      cases chunks with
      | nil => exact ⟨rfl, fun i => by cases i <;> rfl⟩
      | cons c cs =>
          constructor
          · simp [embedProcess]
          · intro i
            simp only [embedProcess]
            rw [if_neg (by simp)]
            rw [List.getElem?_map]
            cases h : (c :: cs)[i]? <;> simp [h]

/-- Claim C5.  For every Item reaching Assemble — after Embed its
embeddings are empty or aligned with the chunks, which is the
hypothesis — the parent record is the single `doc_type = "document"`
record, its `chunk_count` equals the number of chunk records, and every
chunk record's `parent_id` is the parent's `id`. -/
theorem c5_assemble_parent_linkage :
    ∀ (uuid5 : String → String) (freshId : String) (inp : AsmInput),
      inp.embeddings = [] ∨ inp.embeddings.length = inp.chunks.length →
      (assembleProcess uuid5 freshId inp).solrHead.doc_type = "document" ∧
      (assembleProcess uuid5 freshId inp).solrHead.chunk_count =
        (assembleProcess uuid5 freshId inp).vectorDocs.length ∧
      ∀ cd ∈ (assembleProcess uuid5 freshId inp).vectorDocs,
        cd.doc_type = "chunk" ∧
        cd.parent_id = (assembleProcess uuid5 freshId inp).solrHead.id := by
  intro u f inp h
  refine ⟨rfl, ?_, ?_⟩
  · simp only [assembleProcess, List.length_map, List.enum_length,
      List.length_zip]
    rcases h with h | h
    · simp [h]
    · omega
  · intro cd hcd
    simp only [assembleProcess, List.mem_map] at hcd
    obtain ⟨p, _, rfl⟩ := hcd
    exact ⟨rfl, rfl⟩

/-- Claim C5, witness: one chunk with one aligned embedding. -/
theorem c5_assemble_parent_linkage_witness :
    (assembleProcess (fun s => s) "fresh"
        { chunks := ["c1"], embeddings := [⟨"c1", [1]⟩],
          metadata := [("doc_id", "d1")] }).solrHead.doc_type =
      "document" ∧
    (assembleProcess (fun s => s) "fresh"
        { chunks := ["c1"], embeddings := [⟨"c1", [1]⟩],
          metadata := [("doc_id", "d1")] }).solrHead.chunk_count =
      (assembleProcess (fun s => s) "fresh"
        { chunks := ["c1"], embeddings := [⟨"c1", [1]⟩],
          metadata := [("doc_id", "d1")] }).vectorDocs.length ∧
    ∀ cd ∈ (assembleProcess (fun s => s) "fresh"
        { chunks := ["c1"], embeddings := [⟨"c1", [1]⟩],
          metadata := [("doc_id", "d1")] }).vectorDocs,
      cd.doc_type = "chunk" ∧
      cd.parent_id = (assembleProcess (fun s => s) "fresh"
        { chunks := ["c1"], embeddings := [⟨"c1", [1]⟩],
          metadata := [("doc_id", "d1")] }).solrHead.id :=
  c5_assemble_parent_linkage (fun s => s) "fresh"
    { chunks := ["c1"], embeddings := [⟨"c1", [1]⟩],
      metadata := [("doc_id", "d1")] } (Or.inr rfl)

/-- Claim C8, counterexample.  The claim promises zero Items on the
second run for **every** mailbox state, but the first run only
dispatches the last `max_emails` unseen UIDs: with 51 messages and the
default `max_emails = 50`, UID 1 is left unseen and the second run
against the unchanged mailbox yields its Item. -/
theorem c8_truncation_leaves_unseen :
    (emailRead ((List.range 51).map (fun i => ⟨i + 1, []⟩)) []
        50 (fun _ => true)).1.length = 50 ∧
    (emailRead ((List.range 51).map (fun i => ⟨i + 1, []⟩))
        (emailRead ((List.range 51).map (fun i => ⟨i + 1, []⟩)) []
          50 (fun _ => true)).2
        50 (fun _ => true)).1 = [ImapItem.body 1] := by
  exact ⟨by decide, by decide⟩

/-- Claim C8, amended.  If the first run's unseen-UID count is at most
`max_emails` (so no truncation occurs) and every dispatched fetch
succeeds, then after the run persists its seen-UID state a second run
against the unchanged mailbox yields zero Items. -/
theorem c8_second_run_empty :
    ∀ (mailbox : List EmailMsg) (seen : List Nat) (maxE : Nat)
      (f1 f2 : Nat → Bool),
      ((sortedUniqueUids (mailbox.map (·.uid))).filter
          (fun u => !(seen.contains u))).length ≤ maxE →
      (∀ u ∈ (sortedUniqueUids (mailbox.map (·.uid))).filter
          (fun u => !(seen.contains u)), f1 u = true) →
      (emailRead mailbox (emailRead mailbox seen maxE f1).2 maxE f2).1 =
        [] := by
  intro mailbox seen maxE f1 f2 h1 h2
  by_cases hne :
      ((sortedUniqueUids (mailbox.map (·.uid))).filter
        (fun u => !(seen.contains u))) = []
  · have hbe : (((sortedUniqueUids (mailbox.map (·.uid))).filter
        (fun u => !(seen.contains u))) == []) = true := by
      simpa using hne
    have hrun1 : (emailRead mailbox seen maxE f1).2 = seen := by
      simp only [emailRead]
      rw [if_pos hbe]
    rw [hrun1]
    simp only [emailRead]
    rw [if_pos hbe]
  · have hrun1 : (emailRead mailbox seen maxE f1).2 =
        (((sortedUniqueUids (mailbox.map (·.uid))).filter
            (fun u => !(seen.contains u))).foldl
          (emailFetchStep mailbox f1) ([], seen)).2 := by
      simp only [emailRead]
      rw [if_neg (by simpa using hne), pySliceLast_of_le h1]
    have hall : ∀ u ∈ sortedUniqueUids (mailbox.map (·.uid)),
        ((emailRead mailbox seen maxE f1).2).contains u = true := by
      intro u hu
      rw [hrun1]
      apply List.elem_iff.mpr
      by_cases hseen : u ∈ seen
      · exact foldl_seen_mono _ _ hseen
      · have hcf : seen.contains u = false := by
          cases hc : seen.contains u with
          | false => rfl
          | true => exact absurd (List.elem_iff.mp hc) hseen
        have humem : u ∈ (sortedUniqueUids (mailbox.map (·.uid))).filter
            (fun v => !(seen.contains v)) :=
          List.mem_filter.mpr ⟨hu, by simp [hcf, hseen]⟩
        have hfOk := h2 u humem
        have hfind : (mailbox.find? (fun m => m.uid == u)).isSome = true := by
          have hmm : u ∈ mailbox.map (·.uid) := mem_sortedUniqueUids.mp hu
          rcases List.mem_map.mp hmm with ⟨m, hm, hmu⟩
          exact List.find?_isSome.mpr ⟨m, hm, by simp [hmu]⟩
        exact foldl_seen_adds _ _ u humem hfOk hfind
    have hnew2 : (((sortedUniqueUids (mailbox.map (·.uid))).filter
        (fun u => !(((emailRead mailbox seen maxE f1).2).contains u))) ==
          []) = true := by
      simp only [beq_iff_eq]
      apply List.filter_eq_nil_iff.mpr
      intro u hu
      have hm : u ∈ (emailRead mailbox seen maxE f1).2 :=
        List.elem_iff.mp (hall u hu)
      simp [hm]
    conv_lhs => rw [emailRead]
    rw [if_pos hnew2]

/-- Claim C8, witness: a two-message mailbox fully fetched in the first
run leaves nothing for the second. -/
theorem c8_second_run_empty_witness :
    (emailRead [⟨10, []⟩, ⟨11, ["a.pdf"]⟩]
      (emailRead [⟨10, []⟩, ⟨11, ["a.pdf"]⟩] [] 50 (fun _ => true)).2
      50 (fun _ => true)).1 = [] :=
  c8_second_run_empty [⟨10, []⟩, ⟨11, ["a.pdf"]⟩] [] 50 _ _
    (by decide) (by decide)

end Ingest
